import Mathlib

/-!
Shallow embedding of the PerftMaster chess engine core (src/board.rs,
src/move.rs, src/move_generator.rs, src/search.rs) and proofs about the
claims of its specification.

Conventions of the embedding:
* Rust `u64` bitboards are `Nat` values below `2 ^ 64`; wrapping shifts
  are written with an explicit mask.
* Rust `i16` (the `Square` type, also the payload of `Move`) is `Int`,
  with two's-complement bitwise operations defined through the 16-bit
  bit pattern.
* Rust `u16` clocks are `Nat` with explicit `% 65536` where the code
  increments or decrements them.
* Code paths that panic (`unreachable!()`, `unwrap` of `None`, popping an
  empty stack) are modelled by `Option`: the function returns `none`
  exactly where the Rust program would abort.
* `Vec::push`/`Vec::pop` on the game stack are modelled by list cons and
  head/tail, which is the same LIFO discipline.
* The 781-entry `zobrist_values` array (filled with random numbers at
  process start) is a function `Nat → Nat` carried in the board state.
-/

set_option autoImplicit false

set_option maxRecDepth 8000

set_option maxHeartbeats 1000000

namespace PerftMaster

abbrev Bitboard := Nat

abbrev Square := Int

/-- Mask of the low 64 bits, used where Rust `u64` arithmetic wraps. -/
def U64MASK : Nat := 2 ^ 64 - 1

/-- Complement of a `u64` value (Rust `!x`). -/
def compl64 (x : Nat) : Nat := U64MASK ^^^ x

/-- Shift `1 << s` for a square index `s : Int`.  This also models Rust
`Bitboard::checked_shl(1, s as u32).unwrap_or(0)`: a negative `s` casts to a
huge `u32` and yields 0, as does `s ≥ 64`.  The plain `1 << s` expressions in
the source are only ever evaluated with `0 ≤ s < 64`, where the two agree. -/
def sqBit (s : Int) : Nat := if 0 ≤ s ∧ s < 64 then 1 <<< s.toNat else 0

/-- Shift a `u64` constant left by a square index, wrapping to 64 bits
(used for the `0b11 << from` expressions of the en-passant pin test). -/
def shlI (x : Nat) (s : Int) : Nat :=
  if 0 ≤ s ∧ s < 64 then (x <<< s.toNat) &&& U64MASK else 0

/-- Wrapping left shift of a `u64` by a constant (Rust `x << k`). -/
def shl64 (x : Nat) (k : Nat) : Nat := (x <<< k) &&& U64MASK

/-- Bit pattern (two's complement, 16 bits) of an integer as `i16`. -/
def i16pat (x : Int) : Nat := (x % 65536).toNat

/-- Integer value of a 16-bit two's-complement pattern. -/
def i16ofPat (n : Nat) : Int :=
  if n % 65536 < 32768 then ((n % 65536 : Nat) : Int) else ((n % 65536 : Nat) : Int) - 65536

/-- Rust `i16` bitwise and. -/
def i16and (a b : Int) : Int := i16ofPat (i16pat a &&& i16pat b)

/-- Rust `i16` bitwise or. -/
def i16or (a b : Int) : Int := i16ofPat (i16pat a ||| i16pat b)

/-- Rust `i16` left shift by a constant (bits above bit 15 are discarded). -/
def i16shl (a : Int) (k : Nat) : Int := i16ofPat ((i16pat a <<< k) % 65536)

/-- Rust `i16` arithmetic right shift by a constant, i.e. floor division
by `2 ^ k` of the signed value. -/
def i16shr (a : Int) (k : Nat) : Int := Int.fdiv (i16ofPat (i16pat a)) (2 ^ k)

/-- `PieceKind` of src/board.rs. -/
inductive PieceKind where
  | pawn
  | rook
  | knight
  | bishop
  | queen
  | king
  | none
deriving DecidableEq

/-- Rust `piece.kind as usize` (declaration order of the enum). -/
def PieceKind.idx : PieceKind → Nat
  | .pawn => 0
  | .rook => 1
  | .knight => 2
  | .bishop => 3
  | .queen => 4
  | .king => 5
  | .none => 6

/-- `Color` of src/board.rs. -/
inductive Color where
  | white
  | black
  | none
deriving DecidableEq

/-- Rust `piece.color as usize`. -/
def Color.idx : Color → Nat
  | .white => 0
  | .black => 1
  | .none => 2

/-- `impl Sub<Color> for Square`: White subtracts 8, Black adds 8,
`Color::None` is `unreachable!()`. -/
def subColor (s : Square) : Color → Option Square
  | .white => some (s - 8)
  | .black => some (s + 8)
  | .none => Option.none

/-- `Piece` of src/board.rs. -/
structure Piece where
  color : Color
  kind : PieceKind
deriving DecidableEq

/-- `Piece::new()` = `Piece::default()`. -/
def Piece.new : Piece := ⟨Color.none, PieceKind.none⟩

/-- `Piece::value` of src/board.rs. -/
def Piece.value (p : Piece) : Int :=
  match p.kind with
  | .pawn => 100
  | .rook => 500
  | .knight => 320
  | .bishop => 330
  | .queen => 900
  | .king => 100000
  | .none => 0

/-- `Piece::score` of src/board.rs. -/
def Piece.score (p : Piece) : Int :=
  p.value * (match p.color with | .white => 1 | .black => -1 | .none => 0)

/-- `CastleKind` of src/board.rs. -/
inductive CastleKind where
  | kingSide
  | queenSide
  | none
deriving DecidableEq

/-- `Move` of src/move.rs: a 16-bit packed integer stored in the signed
`Square` (`i16`) type. -/
structure Move where
  val : Int
deriving DecidableEq

/-- `Move::NULL`. -/
def Move.NULL : Move := ⟨-1⟩

/-- `Move::new(from, to, flags) = Move(from | (to << 6) | (flags << 12))`. -/
def Move.new (fromSquare toSquare flags : Square) : Move :=
  ⟨i16or (i16or fromSquare (i16shl toSquare 6)) (i16shl flags 12)⟩

/-- `Move::from`: `self.0 & 0b111111`. -/
def Move.fromSq (m : Move) : Square := i16and m.val 63

/-- `Move::to`: `(self.0 >> 6) & 0b111111`. -/
def Move.toSq (m : Move) : Square := i16and (i16shr m.val 6) 63

/-- `Move::flags`: `(self.0 >> 12) as Square` (an arithmetic shift: no mask,
so the sign bit of the packed `i16` is kept). -/
def Move.flags (m : Move) : Square := i16shr m.val 12

/-- `Move::is_capture`: `flags & 0b0100 > 0`. -/
def Move.is_capture (m : Move) : Bool := 0 < i16and m.flags 4

/-- `Move::is_en_passant`: `flags == 0b0101`. -/
def Move.is_en_passant (m : Move) : Bool := m.flags = 5

/-- `Move::is_double_push`: `flags == 0b0001`. -/
def Move.is_double_push (m : Move) : Bool := m.flags = 1

/-- `Move::is_promotion`: `flags & 0b1000 > 0`. -/
def Move.is_promotion (m : Move) : Bool := 0 < i16and m.flags 8

/-- `Move::is_quiet`: `flags == 0b0000`. -/
def Move.is_quiet (m : Move) : Bool := m.flags = 0

/-- `Move::promotion`: match on `flags & 0b1011`. -/
def Move.promotion (m : Move) : PieceKind :=
  let f := i16and m.flags 11
  if f = 8 then .rook
  else if f = 9 then .knight
  else if f = 10 then .bishop
  else if f = 11 then .queen
  else .none

/-- `Move::is_castle`: `flags == 0b0010 || flags == 0b0011`. -/
def Move.is_castle (m : Move) : Bool := m.flags = 2 ∨ m.flags = 3

/-- `Move::castle`. -/
def Move.castle (m : Move) : CastleKind :=
  if m.flags = 2 then .kingSide else if m.flags = 3 then .queenSide else .none

/-- `Move::reverse`: swap the from and to fields, keep the flags. -/
def Move.reverse (m : Move) : Move :=
  ⟨i16or (i16or m.toSq (i16shl m.fromSq 6)) (i16shl m.flags 12)⟩

/-- `Move::bitmap`: `(1 << from) | (1 << to)`. -/
def Move.bitmap (m : Move) : Bitboard := sqBit m.fromSq ||| sqBit m.toSq

/-- `Move::add_promotion_if_possible` of src/move.rs. -/
def Move.add_promotion_if_possible (fromSquare toSquare flags : Square) : List Move :=
  if toSquare / 8 = 0 ∨ toSquare / 8 = 7 then
    [Move.new fromSquare toSquare (i16or flags 8),
     Move.new fromSquare toSquare (i16or flags 9),
     Move.new fromSquare toSquare (i16or flags 10),
     Move.new fromSquare toSquare (i16or flags 11)]
  else
    [Move.new fromSquare toSquare flags]

/-- `IrreversibleAspects` of src/board.rs. -/
structure IrreversibleAspects where
  capture : Piece
  half_move_clock : Nat
  ep : Square
  castling_rights : Nat
deriving DecidableEq

/-- `Board` of src/board.rs.  `zobrist_values` is the 781-entry random
array, modelled as a function from index to value. -/
structure Board where
  white_pieces : Bitboard
  black_pieces : Bitboard
  pawns : Bitboard
  rooks : Bitboard
  knights : Bitboard
  bishops : Bitboard
  queens : Bitboard
  kings : Bitboard
  ep : Square
  half_move_clock : Nat
  full_move_clock : Nat
  castling_rights : Nat
  turn : Color
  game_stack : List IrreversibleAspects
  zobrist_hash : Nat
  zobrist_values : Nat → Nat

/-- A fresh board (`Board::new()` except that the caller supplies the
random Zobrist table explicitly). -/
def Board.fresh (zv : Nat → Nat) : Board :=
  { white_pieces := 0, black_pieces := 0, pawns := 0, rooks := 0, knights := 0,
    bishops := 0, queens := 0, kings := 0, ep := 0, half_move_clock := 0,
    full_move_clock := 0, castling_rights := 0, turn := Color.white,
    game_stack := [], zobrist_hash := 0, zobrist_values := zv }

/-- `Board::own_pieces`. -/
def Board.own_pieces (b : Board) : Option Bitboard :=
  match b.turn with
  | .white => some b.white_pieces
  | .black => some b.black_pieces
  | .none => Option.none

/-- `Board::opponent_pieces`. -/
def Board.opponent_pieces (b : Board) : Option Bitboard :=
  match b.turn with
  | .white => some b.black_pieces
  | .black => some b.white_pieces
  | .none => Option.none

/-- `Board::get_piece` of src/board.rs: priority chain over the color and
kind bitboards. -/
def Board.get_piece (b : Board) (square : Square) : Piece :=
  let color :=
    if 0 < b.white_pieces &&& sqBit square then Color.white
    else if 0 < b.black_pieces &&& sqBit square then Color.black
    else Color.none
  let kind :=
    if 0 < b.pawns &&& sqBit square then PieceKind.pawn
    else if 0 < b.rooks &&& sqBit square then PieceKind.rook
    else if 0 < b.knights &&& sqBit square then PieceKind.knight
    else if 0 < b.bishops &&& sqBit square then PieceKind.bishop
    else if 0 < b.queens &&& sqBit square then PieceKind.queen
    else if 0 < b.kings &&& sqBit square then PieceKind.king
    else PieceKind.none
  ⟨color, kind⟩

/-- Zobrist index of a piece on a square:
`square as usize + kind as usize * 128 + color as usize * 64`. -/
def zIdx (square : Square) (p : Piece) : Nat :=
  square.toNat + p.kind.idx * 128 + p.color.idx * 64

/-- Zobrist index of the en-passant file: `773 + (ep % 8) as usize`. -/
def epIdx (ep : Square) : Nat := 773 + (ep % 8).toNat

/-- `Board::toggle_piece` of src/board.rs.  `Color::None` and
`PieceKind::None` are `unreachable!()` in the source. -/
def Board.toggle_piece (b : Board) (piece : Piece) (square : Square) : Option Board := do
  let bitmap := sqBit square
  let b ← match piece.color with
    | .white => some { b with white_pieces := b.white_pieces ^^^ bitmap }
    | .black => some { b with black_pieces := b.black_pieces ^^^ bitmap }
    | .none => Option.none
  let b ← match piece.kind with
    | .pawn => some { b with pawns := b.pawns ^^^ bitmap }
    | .rook => some { b with rooks := b.rooks ^^^ bitmap }
    | .knight => some { b with knights := b.knights ^^^ bitmap }
    | .bishop => some { b with bishops := b.bishops ^^^ bitmap }
    | .queen => some { b with queens := b.queens ^^^ bitmap }
    | .king => some { b with kings := b.kings ^^^ bitmap }
    | .none => Option.none
  some { b with zobrist_hash := b.zobrist_hash ^^^ b.zobrist_values (zIdx square piece) }

/-- `Board::move_piece` of src/board.rs. -/
def Board.move_piece (b : Board) (piece : Piece) (m : Move) : Option Board := do
  let bitmap := m.bitmap
  let b ← match piece.color with
    | .white => some { b with white_pieces := b.white_pieces ^^^ bitmap }
    | .black => some { b with black_pieces := b.black_pieces ^^^ bitmap }
    | .none => Option.none
  let b ← match piece.kind with
    | .pawn => some { b with pawns := b.pawns ^^^ bitmap }
    | .rook => some { b with rooks := b.rooks ^^^ bitmap }
    | .knight => some { b with knights := b.knights ^^^ bitmap }
    | .bishop => some { b with bishops := b.bishops ^^^ bitmap }
    | .queen => some { b with queens := b.queens ^^^ bitmap }
    | .king => some { b with kings := b.kings ^^^ bitmap }
    | .none => Option.none
  let b := { b with zobrist_hash := b.zobrist_hash ^^^ b.zobrist_values (zIdx m.fromSq piece) }
  some { b with zobrist_hash := b.zobrist_hash ^^^ b.zobrist_values (zIdx m.toSq piece) }

/-- `Board::toggle_promotion` of src/board.rs. -/
def Board.toggle_promotion (b : Board) (piecekind : PieceKind) (square : Square) :
    Option Board := do
  let b ← b.toggle_piece ⟨b.turn, PieceKind.pawn⟩ square
  b.toggle_piece ⟨b.turn, piecekind⟩ square

/-- `Board::toggle_castle` of src/board.rs. -/
def Board.toggle_castle (b : Board) (m : Move) (fromSquare : Square) : Option Board :=
  match m.castle with
  | .kingSide =>
      b.move_piece ⟨b.turn, PieceKind.rook⟩ (Move.new (fromSquare + 3) (fromSquare + 1) 0)
  | .queenSide =>
      b.move_piece ⟨b.turn, PieceKind.rook⟩ (Move.new (fromSquare - 4) (fromSquare - 1) 0)
  | .none => Option.none

/-- `Board::modify_castling_rights_from_rook` of src/board.rs. -/
def Board.modify_castling_rights_from_rook (b : Board) (fromSquare : Square) : Board :=
  if fromSquare = 0 then
    if 0 < b.castling_rights &&& 4 then
      { b with castling_rights := b.castling_rights &&& 11,
               zobrist_hash := b.zobrist_hash ^^^ b.zobrist_values 770 }
    else b
  else if fromSquare = 7 then
    if 0 < b.castling_rights &&& 8 then
      { b with castling_rights := b.castling_rights &&& 7,
               zobrist_hash := b.zobrist_hash ^^^ b.zobrist_values 769 }
    else b
  else if fromSquare = 56 then
    if 0 < b.castling_rights &&& 1 then
      { b with castling_rights := b.castling_rights &&& 14,
               zobrist_hash := b.zobrist_hash ^^^ b.zobrist_values 772 }
    else b
  else if fromSquare = 63 then
    if 0 < b.castling_rights &&& 2 then
      { b with castling_rights := b.castling_rights &&& 13,
               zobrist_hash := b.zobrist_hash ^^^ b.zobrist_values 771 }
    else b
  else b

/-- The castling-right clearing that `make_move` performs inline (twice:
in the castle branch and in the king-move branch), matching on `self.turn`
with `Color::None => unreachable!()`. -/
def Board.clear_rights_for_turn (b : Board) : Option Board :=
  match b.turn with
  | .white =>
      let b :=
        if 0 < b.castling_rights &&& 8 then
          { b with castling_rights := b.castling_rights &&& 7,
                   zobrist_hash := b.zobrist_hash ^^^ b.zobrist_values 769 }
        else b
      let b :=
        if 0 < b.castling_rights &&& 4 then
          { b with castling_rights := b.castling_rights &&& 11,
                   zobrist_hash := b.zobrist_hash ^^^ b.zobrist_values 770 }
        else b
      some b
  | .black =>
      let b :=
        if 0 < b.castling_rights &&& 2 then
          { b with castling_rights := b.castling_rights &&& 13,
                   zobrist_hash := b.zobrist_hash ^^^ b.zobrist_values 771 }
        else b
      let b :=
        if 0 < b.castling_rights &&& 1 then
          { b with castling_rights := b.castling_rights &&& 14,
                   zobrist_hash := b.zobrist_hash ^^^ b.zobrist_values 772 }
        else b
      some b
  | .none => Option.none

/-- `Board::change_turn` of src/board.rs. -/
def Board.change_turn (b : Board) : Board :=
  let b :=
    if b.turn = Color.white then { b with turn := Color.black }
    else { b with turn := Color.white }
  { b with zobrist_hash := b.zobrist_hash ^^^ b.zobrist_values 768 }

/-- `Board::make_move` of src/board.rs lines 382-499. -/
def Board.make_move (b : Board) (m : Move) : Option Board := do
  let irr0 : IrreversibleAspects :=
    { capture := Piece.new, ep := b.ep, half_move_clock := b.half_move_clock,
      castling_rights := b.castling_rights }
  let fromSquare := m.fromSq
  let toSquare := m.toSq
  let from_piece := b.get_piece fromSquare
  -- Capture
  let (b, irr) ←
    if m.is_capture && !m.is_en_passant then do
      let to_piece := b.get_piece toSquare
      let b ← b.toggle_piece to_piece toSquare
      let b :=
        if to_piece.kind = PieceKind.rook then b.modify_castling_rights_from_rook toSquare
        else b
      pure (b, { irr0 with capture := to_piece })
    -- En passant
    else if m.is_en_passant then do
      let sq ← subColor b.ep b.turn
      let ep_piece := b.get_piece sq
      let b ← b.toggle_piece ep_piece sq
      pure (b, { irr0 with capture := ep_piece })
    else pure (b, irr0)
  let b :=
    if b.ep ≠ -1 then
      { b with zobrist_hash := b.zobrist_hash ^^^ b.zobrist_values (epIdx b.ep), ep := -1 }
    else b
  let b ←
    if m.is_double_push then do
      let newEp ← subColor toSquare b.turn
      pure { b with ep := newEp,
                    zobrist_hash := b.zobrist_hash ^^^ b.zobrist_values (epIdx newEp) }
    else pure b
  -- Promotion
  let b ← if m.is_promotion then b.toggle_promotion m.promotion toSquare else pure b
  -- Castling
  let b ←
    if m.is_castle then do
      let b ← b.toggle_castle m fromSquare
      b.clear_rights_for_turn
    else pure b
  -- King moves
  let b ← if from_piece.kind = PieceKind.king then b.clear_rights_for_turn else pure b
  -- Rook moves
  let b :=
    if from_piece.kind = PieceKind.rook then b.modify_castling_rights_from_rook fromSquare
    else b
  let b :=
    if m.is_quiet then { b with half_move_clock := (b.half_move_clock + 1) % 65536 }
    else { b with half_move_clock := 0 }
  let b ← b.move_piece from_piece m
  let b := b.change_turn
  let b :=
    if b.turn = Color.white then { b with full_move_clock := (b.full_move_clock + 1) % 65536 }
    else b
  some { b with game_stack := irr :: b.game_stack }

/-- `Board::unmake_move` of src/board.rs lines 501-567. -/
def Board.unmake_move (b : Board) (m0 : Move) : Option Board := do
  let b := b.change_turn
  let irr ← b.game_stack.head?
  let b := { b with game_stack := b.game_stack.tail }
  let b :=
    if irr.ep ≠ -1 then
      { b with zobrist_hash := b.zobrist_hash ^^^ b.zobrist_values (epIdx irr.ep) }
    else b
  let b :=
    if b.ep ≠ -1 then
      { b with zobrist_hash := b.zobrist_hash ^^^ b.zobrist_values (epIdx b.ep) }
    else b
  let b :=
    if b.castling_rights ≠ irr.castling_rights then
      let modified := b.castling_rights ^^^ irr.castling_rights
      let b :=
        if 0 < modified &&& 8 then
          { b with zobrist_hash := b.zobrist_hash ^^^ b.zobrist_values 769 } else b
      let b :=
        if 0 < modified &&& 4 then
          { b with zobrist_hash := b.zobrist_hash ^^^ b.zobrist_values 770 } else b
      let b :=
        if 0 < modified &&& 2 then
          { b with zobrist_hash := b.zobrist_hash ^^^ b.zobrist_values 771 } else b
      let b :=
        if 0 < modified &&& 1 then
          { b with zobrist_hash := b.zobrist_hash ^^^ b.zobrist_values 772 } else b
      b
    else b
  let m := m0.reverse
  let fromSquare := m.fromSq
  let toSquare := m.toSq
  -- Promotion
  let b ← if m.is_promotion then b.toggle_promotion m.promotion fromSquare else pure b
  let from_piece := b.get_piece fromSquare
  -- Capture
  let b ←
    if m.is_capture && !m.is_en_passant then b.toggle_piece irr.capture fromSquare
    -- En passant
    else if m.is_en_passant then do
      let sq ← subColor irr.ep b.turn
      b.toggle_piece irr.capture sq
    else pure b
  -- Castling
  let b ← if m.is_castle then b.toggle_castle m toSquare else pure b
  let b ← b.move_piece from_piece m
  let b := { b with ep := irr.ep, half_move_clock := irr.half_move_clock,
                    castling_rights := irr.castling_rights }
  let b :=
    if b.turn = Color.black then
      { b with full_move_clock := (b.full_move_clock + 65535) % 65536 }
    else b
  some b

/-- `Board::annotate_move` of src/board.rs. -/
def Board.annotate_move (b : Board) (m : Move) (promotion : PieceKind) : Move :=
  let fromSquare := m.fromSq
  let toSquare := m.toSq
  let from_piece := b.get_piece fromSquare
  let to_piece := b.get_piece toSquare
  let flags : Square :=
    match from_piece.kind with
    | .pawn =>
        let f : Square := if (toSquare - fromSquare).natAbs = 16 then 1 else 0
        if (toSquare - fromSquare).natAbs % 2 = 1 ∧ to_piece.kind = PieceKind.none then 5
        else f
    | .king =>
        if toSquare - fromSquare = 2 then 2
        else if toSquare - fromSquare = -2 then 3
        else 0
    | _ => 0
  let flags := if to_piece.kind ≠ PieceKind.none then i16or flags 4 else flags
  let flags :=
    match promotion with
    | .rook => i16or flags 8
    | .knight => i16or flags 9
    | .bishop => i16or flags 10
    | .queen => i16or flags 11
    | _ => flags
  ⟨i16or m.val (i16shl flags 12)⟩

/-- `Board::clean_board` of src/board.rs: clears the piece bitboards and the
en-passant square (and nothing else -- in particular not `zobrist_hash`,
the clocks, the castling rights, the turn or the game stack). -/
def Board.clean_board (b : Board) : Board :=
  { b with white_pieces := 0, black_pieces := 0, pawns := 0, rooks := 0,
           knights := 0, bishops := 0, queens := 0, kings := 0, ep := -1 }

/-- `Board::load_startpos` of src/board.rs. -/
def Board.load_startpos (b : Board) : Board :=
  { b with
    white_pieces := 0xffff,
    black_pieces := 0xffff <<< 48,
    pawns := 0xff00 ||| (0x00ff <<< 48),
    rooks := 0x0081 ||| (0x8100 <<< 48),
    knights := 0x0042 ||| (0x4200 <<< 48),
    bishops := 0x0024 ||| (0x2400 <<< 48),
    queens := 0x0008 ||| (0x0800 <<< 48),
    kings := 0x0010 ||| (0x1000 <<< 48),
    turn := Color.white,
    half_move_clock := 0,
    full_move_clock := 1 }

/-- Splitting a character list on single spaces, the behaviour of Rust
`str::split(" ")` (consecutive separators yield empty fields). -/
def splitOnSpaceAux : List Char → List Char → List (List Char)
  | [], acc => [acc.reverse]
  | c :: rest, acc =>
      if c = ' ' then acc.reverse :: splitOnSpaceAux rest []
      else splitOnSpaceAux rest (c :: acc)

/-- Split a character list on spaces. -/
def splitOnSpace (s : List Char) : List (List Char) := splitOnSpaceAux s []

/-- `String::to_square` of src/board.rs (`impl ToSquare for String`): the
`unwrap`s on the first two characters panic on a short string. -/
def stringToSquare (s : List Char) : Option Square := do
  let c0 ← s[0]?
  let c1 ← s[1]?
  some (((c0.toNat : Int) - 97) + ((c1.toNat : Int) - 49) * 8)

/-- Rust `str::parse::<u16>()` as used on the FEN clock fields: digits only,
value within `u16` range. -/
def parseU16 (s : List Char) : Option Nat :=
  if s.length = 0 ∨ ¬ s.all Char.isDigit then Option.none
  else
    let n := s.foldl (fun acc c => acc * 10 + (c.toNat - 48)) 0
    if n < 65536 then some n else Option.none

/-- One step of the piece-placement loop of `Board::load_fen`. -/
def loadFenStep (st : Board × Square) (piece : Char) : Board × Square :=
  let (b, pos) := st
  if piece = '/' then (b, pos)
  else
    let (b, pos) :=
      if piece.isDigit then (b, pos + ((piece.toNat : Int) - 48))
      else
        let b :=
          if piece.isUpper then
            let b := { b with white_pieces := b.white_pieces ||| sqBit pos }
            match piece with
            | 'P' => { b with pawns := b.pawns ||| sqBit pos }
            | 'R' => { b with rooks := b.rooks ||| sqBit pos }
            | 'N' => { b with knights := b.knights ||| sqBit pos }
            | 'B' => { b with bishops := b.bishops ||| sqBit pos }
            | 'Q' => { b with queens := b.queens ||| sqBit pos }
            | 'K' => { b with kings := b.kings ||| sqBit pos }
            | _ => b
          else
            let b := { b with black_pieces := b.black_pieces ||| sqBit pos }
            match piece with
            | 'p' => { b with pawns := b.pawns ||| sqBit pos }
            | 'r' => { b with rooks := b.rooks ||| sqBit pos }
            | 'n' => { b with knights := b.knights ||| sqBit pos }
            | 'b' => { b with bishops := b.bishops ||| sqBit pos }
            | 'q' => { b with queens := b.queens ||| sqBit pos }
            | 'k' => { b with kings := b.kings ||| sqBit pos }
            | _ => b
        (b, pos + 1)
    if 8 < pos ∧ pos % 8 = 0 then (b, pos - 16) else (b, pos)

/-- One step of the castling-rights loop of `Board::load_fen`. -/
def castlingStep (b : Board) (c : Char) : Board :=
  match c with
  | 'K' => { b with castling_rights := b.castling_rights ||| 8 }
  | 'Q' => { b with castling_rights := b.castling_rights ||| 4 }
  | 'k' => { b with castling_rights := b.castling_rights ||| 2 }
  | 'q' => { b with castling_rights := b.castling_rights ||| 1 }
  | _ => b

/-- `Board::load_fen` of src/board.rs.  The `unwrap`s on the six
space-separated fields and the clock parses panic (`none`) on malformed
input; the turn field panics unless it is `w` or `b`. -/
def Board.load_fen (b : Board) (fen : String) : Option Board := do
  let parts := splitOnSpace fen.toList
  let pieces ← parts[0]?
  let turnStr ← parts[1]?
  let castling ← parts[2]?
  let en_passant ← parts[3]?
  let halfmove_clock ← parts[4]?
  let fullmove_clock ← parts[5]?
  let b := (pieces.foldl loadFenStep (b, (56 : Square))).1
  let b ←
    if turnStr = ['w'] then some { b with turn := Color.white }
    else if turnStr = ['b'] then some { b with turn := Color.black }
    else Option.none
  let b := { b with castling_rights := 0 }
  let b := castling.foldl castlingStep b
  let b ←
    if en_passant ≠ ['-'] then do
      let sq ← stringToSquare en_passant
      pure { b with ep := sq }
    else pure { b with ep := -1 }
  let hm ← parseU16 halfmove_clock
  let fm ← parseU16 fullmove_clock
  some { b with half_move_clock := hm, full_move_clock := fm }

/-- One square of the piece loop of `Board::calculate_zobrist`. -/
def zobristPieceStep (b : Board) (sq : Nat) : Board :=
  let piece := b.get_piece (sq : Int)
  if piece.kind ≠ PieceKind.none then
    { b with zobrist_hash := b.zobrist_hash ^^^ b.zobrist_values (zIdx (sq : Int) piece) }
  else b

/-- The Zobrist component a square contributes for the current fields. -/
def zobristPieceVal (b : Board) (sq : Nat) : Nat :=
  let piece := b.get_piece (sq : Int)
  if piece.kind ≠ PieceKind.none then b.zobrist_values (zIdx (sq : Int) piece) else 0

/-- `Board::calculate_zobrist` of src/board.rs: XORs the components of the
current fields into the existing `zobrist_hash` (it does not reset the hash
to zero first). -/
def Board.calculate_zobrist (b : Board) : Board :=
  let b := (List.range 64).foldl zobristPieceStep b
  let b :=
    if b.turn = Color.black then
      { b with zobrist_hash := b.zobrist_hash ^^^ b.zobrist_values 768 }
    else b
  let b :=
    if 0 < b.castling_rights &&& 8 then
      { b with zobrist_hash := b.zobrist_hash ^^^ b.zobrist_values 769 }
    else b
  let b :=
    if 0 < b.castling_rights &&& 4 then
      { b with zobrist_hash := b.zobrist_hash ^^^ b.zobrist_values 770 }
    else b
  let b :=
    if 0 < b.castling_rights &&& 2 then
      { b with zobrist_hash := b.zobrist_hash ^^^ b.zobrist_values 771 }
    else b
  let b :=
    if 0 < b.castling_rights &&& 1 then
      { b with zobrist_hash := b.zobrist_hash ^^^ b.zobrist_values 772 }
    else b
  if b.ep ≠ -1 then
    { b with zobrist_hash := b.zobrist_hash ^^^ b.zobrist_values (epIdx b.ep) }
  else b

/-- The payload of a `vampirc_uci::UciMove` after `ucisquare_to_square`
decoding: the raw from square, to square and optional promotion kind that
`Move::from_ucimove` of src/move.rs consumes. -/
structure UciMoveData where
  fromSq : Square
  toSq : Square
  promotion : PieceKind

/-- `Move::from_ucimove` of src/move.rs: build the raw move and let the
board annotate it. -/
def Move.from_ucimove (b : Board) (um : UciMoveData) : Move :=
  b.annotate_move (Move.new um.fromSq um.toSq 0) um.promotion

/-- `Board::load_position` of src/board.rs lines 201-219. -/
def Board.load_position (b : Board) (fen : Option String) (moves : List UciMoveData) :
    Option Board := do
  let b := b.clean_board
  let b ←
    match fen with
    | Option.none => some b.load_startpos
    | some f => b.load_fen f
  let b ← moves.foldlM (fun b um => b.make_move (Move.from_ucimove b um)) b
  some b.calculate_zobrist

/-- Modelled from the spec: the from-scratch Zobrist value implied by the
fields of a position, "the XOR of the per-piece, side-to-move,
castling-rights and en-passant-file components of the final position". -/
def specZobrist (b : Board) : Nat :=
  ((List.range 64).foldl (fun h sq => h ^^^ zobristPieceVal b sq) 0)
    ^^^ (if b.turn = Color.black then b.zobrist_values 768 else 0)
    ^^^ (if 0 < b.castling_rights &&& 8 then b.zobrist_values 769 else 0)
    ^^^ (if 0 < b.castling_rights &&& 4 then b.zobrist_values 770 else 0)
    ^^^ (if 0 < b.castling_rights &&& 2 then b.zobrist_values 771 else 0)
    ^^^ (if 0 < b.castling_rights &&& 1 then b.zobrist_values 772 else 0)
    ^^^ (if b.ep ≠ -1 then b.zobrist_values (epIdx b.ep) else 0)

/-! ### Move generator (src/move_generator.rs)

Loops driven by `pop_lsb` are modelled by structural recursion on a fuel
argument; a 64-bit board has at most 64 set bits, so fuel 64 makes every
loop run to completion exactly as the `while let` loop of the source does.
-/

def NOT_A_FILE : Bitboard := 0xFEFEFEFEFEFEFEFE

def NOT_AB_FILE : Bitboard := 0xFCFCFCFCFCFCFCFC

def NOT_GH_FILE : Bitboard := 0x3F3F3F3F3F3F3F3F

def NOT_H_FILE : Bitboard := 0x7F7F7F7F7F7F7F7F

/-- `Bitops::bitscan_forward`: index of the lowest set bit among bits
0..63, `None` when there is none. -/
def bsfAux : Nat → Nat → Nat → Option Square
  | 0, _, _ => Option.none
  | fuel + 1, x, i => if x % 2 = 1 then some (i : Int) else bsfAux fuel (x / 2) (i + 1)

/-- `Bitops::bitscan_forward` of src/move_generator.rs. -/
def bitscan_forward (x : Bitboard) : Option Square := bsfAux 64 x 0

/-- Helper for `bitscan_reverse`: scan bits 63 down to 0. -/
def bsrAux : Nat → Bitboard → Option Square
  | 0, _ => Option.none
  | fuel + 1, x => if (x >>> fuel) % 2 = 1 then some ((fuel : Nat) : Int) else bsrAux fuel x

/-- `Bitops::bitscan_reverse` of src/move_generator.rs. -/
def bitscan_reverse (x : Bitboard) : Option Square := bsrAux 64 x

/-- `Bitops::pop_lsb`: the popped square together with the remaining
bitboard (`*self ^= 1 << result`). -/
def pop_lsb (x : Bitboard) : Option (Square × Bitboard) :=
  match bitscan_forward x with
  | some r => some (r, x ^^^ sqBit r)
  | Option.none => Option.none

/-- `Dir` of src/move_generator.rs. -/
inductive Dir where
  | north
  | northWest
  | northEast
  | south
  | southWest
  | southEast
  | west
  | east
deriving DecidableEq

/-- `Dir::to_square`. -/
def Dir.to_square : Dir → Square
  | .north => 8
  | .northEast => 9
  | .northWest => 7
  | .east => 1
  | .west => -1
  | .south => -8
  | .southWest => -9
  | .southEast => -7

/-- `Dir::from_squares` of src/move_generator.rs. -/
def Dir.from_squares (f t : Square) : Option Dir :=
  let files := t % 8 - f % 8
  let ranks := t / 8 - f / 8
  if files = 0 ∨ ranks = 0 ∨ files.natAbs = ranks.natAbs then
    let square_dir :=
      (t - f) / (if files = 0 then max ((ranks.natAbs : Int)) 1 else max ((files.natAbs : Int)) 1)
    if square_dir = 8 then some .north
    else if square_dir = 9 then some .northEast
    else if square_dir = 7 then some .northWest
    else if square_dir = 1 then some .east
    else if square_dir = -1 then some .west
    else if square_dir = -8 then some .south
    else if square_dir = -9 then some .southWest
    else if square_dir = -7 then some .southEast
    else Option.none
  else Option.none

/-- `Dir::rem`: `(self.to_square() + 16) % rhs`. -/
def Dir.rem (d : Dir) (rhs : Square) : Square := (d.to_square + 16) % rhs

/-- Loop condition of `get_ray` for the current direction class. -/
def rayCond (dir : Dir) (f : Square) : Bool :=
  if dir.rem 8 = 1 then 0 < (f + 8) % 8 ∧ 0 ≤ f ∧ f < 64
  else if dir.rem 8 = 7 then (f + 8) % 8 < 7 ∧ 0 ≤ f ∧ f < 64
  else 0 ≤ f ∧ f < 64

/-- Body of the `get_ray` walk (at most 7 steps fit on the board). -/
def rayAcc (dir : Dir) : Nat → Square → Bitboard
  | 0, _ => 0
  | fuel + 1, f =>
      if rayCond dir f then sqBit f ||| rayAcc dir fuel (f + dir.to_square) else 0

/-- `get_ray` of src/move_generator.rs (the `RAYS` table entries are just
this function evaluated at each square). -/
def get_ray (fromSquare : Square) (dir : Dir) : Bitboard :=
  rayAcc dir 8 (fromSquare + dir.to_square)

/-- `RAYS[dir][square]` of src/move_generator.rs. -/
def RAYS (dir : Dir) (square : Square) : Bitboard := get_ray square dir

/-- Loop condition of `get_in_between_ray`. -/
def betweenCond (dir : Dir) (f t : Square) : Bool :=
  if dir.rem 8 = 1 then 0 < (f + 8) % 8 ∧ f < t
  else if dir.rem 8 = 7 then (f + 8) % 8 < 7 ∧ f < t
  else 0 ≤ f ∧ f < t

/-- Body of the `get_in_between_ray` walk. -/
def betweenAcc (dir : Dir) (t : Square) : Nat → Square → Bitboard
  | 0, _ => 0
  | fuel + 1, f =>
      if betweenCond dir f t then sqBit f ||| betweenAcc dir t fuel (f + dir.to_square) else 0

/-- `get_in_between_ray` of src/move_generator.rs. -/
def get_in_between_ray (a b : Square) : Bitboard :=
  let f := min a b
  let t := max a b
  match Dir.from_squares f t with
  | some dir => betweenAcc dir t 8 (f + dir.to_square)
  | Option.none => 0

/-- `IN_BETWEEN_RAYS[from][to]` of src/move_generator.rs. -/
def IN_BETWEEN_RAYS (a b : Square) : Bitboard := get_in_between_ray a b

/-- `get_positive_ray_attacks` of src/move_generator.rs. -/
def get_positive_ray_attacks (square : Square) (dir : Dir) (occupied : Bitboard) : Bitboard :=
  let attacks := RAYS dir square
  let blocker := attacks &&& occupied
  match bitscan_forward blocker with
  | some sq => attacks ^^^ RAYS dir sq
  | Option.none => attacks

/-- `get_negative_ray_attacks` of src/move_generator.rs. -/
def get_negative_ray_attacks (square : Square) (dir : Dir) (occupied : Bitboard) : Bitboard :=
  let attacks := RAYS dir square
  let blocker := attacks &&& occupied
  match bitscan_reverse blocker with
  | some sq => attacks ^^^ RAYS dir sq
  | Option.none => attacks

/-- `u64::count_ones`. -/
def popCountAux : Nat → Nat → Nat
  | 0, _ => 0
  | fuel + 1, x => x % 2 + popCountAux fuel (x / 2)

/-- `count_ones` of a 64-bit board. -/
def count_ones (x : Bitboard) : Nat := popCountAux 64 x

/-- `MoveGenerator` of src/move_generator.rs.  The `&mut Board` borrow is
modelled by carrying the board in the state; no method of the generator
ever assigns to a board field. -/
structure MoveGenerator where
  board : Board
  attacks : Bitboard
  checkers : Bitboard
  block_ray : Bitboard
  pinned : Bitboard

/-- `MoveGeneratorResult` of src/move_generator.rs, with the fixed
218-slot array abstracted to the list of pushed moves in push order. -/
structure MoveGeneratorResult where
  moves : List Move
  in_check : Bool

/-- `MoveGenerator::white_pawn_attacks`. -/
def white_pawn_attacks (fromSquare : Square) : Bitboard :=
  (sqBit (fromSquare + 7) &&& NOT_H_FILE) ||| (sqBit (fromSquare + 9) &&& NOT_A_FILE)

/-- `MoveGenerator::black_pawn_attacks`. -/
def black_pawn_attacks (fromSquare : Square) : Bitboard :=
  (sqBit (fromSquare - 7) &&& NOT_A_FILE) ||| (sqBit (fromSquare - 9) &&& NOT_H_FILE)

/-- `MoveGenerator::knight_attacks`. -/
def knight_attacks (fromSquare : Square) : Bitboard :=
  (sqBit (fromSquare + 15) &&& NOT_H_FILE)
    ||| (sqBit (fromSquare + 17) &&& NOT_A_FILE)
    ||| (sqBit (fromSquare + 6) &&& NOT_GH_FILE)
    ||| (sqBit (fromSquare + 10) &&& NOT_AB_FILE)
    ||| (sqBit (fromSquare - 10) &&& NOT_GH_FILE)
    ||| (sqBit (fromSquare - 6) &&& NOT_AB_FILE)
    ||| (sqBit (fromSquare - 17) &&& NOT_H_FILE)
    ||| (sqBit (fromSquare - 15) &&& NOT_A_FILE)

/-- `MoveGenerator::rook_attacks`. -/
def rook_attacks (fromSquare : Square) (occupied : Bitboard) : Bitboard :=
  get_positive_ray_attacks fromSquare Dir.north occupied
    ||| get_positive_ray_attacks fromSquare Dir.east occupied
    ||| get_negative_ray_attacks fromSquare Dir.west occupied
    ||| get_negative_ray_attacks fromSquare Dir.south occupied

/-- `MoveGenerator::bishop_attacks`. -/
def bishop_attacks (fromSquare : Square) (occupied : Bitboard) : Bitboard :=
  get_positive_ray_attacks fromSquare Dir.northWest occupied
    ||| get_positive_ray_attacks fromSquare Dir.northEast occupied
    ||| get_negative_ray_attacks fromSquare Dir.southEast occupied
    ||| get_negative_ray_attacks fromSquare Dir.southWest occupied

/-- `MoveGenerator::queen_attacks`. -/
def queen_attacks (fromSquare : Square) (occupied : Bitboard) : Bitboard :=
  get_positive_ray_attacks fromSquare Dir.northWest occupied
    ||| get_positive_ray_attacks fromSquare Dir.north occupied
    ||| get_positive_ray_attacks fromSquare Dir.northEast occupied
    ||| get_positive_ray_attacks fromSquare Dir.east occupied
    ||| get_negative_ray_attacks fromSquare Dir.southEast occupied
    ||| get_negative_ray_attacks fromSquare Dir.south occupied
    ||| get_negative_ray_attacks fromSquare Dir.southWest occupied
    ||| get_negative_ray_attacks fromSquare Dir.west occupied

/-- `MoveGenerator::king_attacks`. -/
def king_attacks (fromSquare : Square) : Bitboard :=
  let bitboard := (sqBit (fromSquare - 1) &&& NOT_H_FILE)
    ||| sqBit fromSquare
    ||| (sqBit (fromSquare + 1) &&& NOT_A_FILE)
  let bitboard := bitboard ||| shl64 bitboard 8
  bitboard ||| (bitboard >>> 8)

/-- A `while let Some(from) = bb.pop_lsb()` loop that ORs an attack set
for each popped square (the body shape of `get_attacks`). -/
def attackLoop (f : Square → Bitboard) : Nat → Bitboard → Bitboard → Bitboard
  | 0, _, acc => acc
  | fuel + 1, bb, acc =>
      match pop_lsb bb with
      | some (fromSquare, bb') => attackLoop f fuel bb' (acc ||| f fromSquare)
      | Option.none => acc

/-- `MoveGenerator::get_attacks` of src/move_generator.rs lines 360-393.
The occupancy passed to the sliding attacks is `own | opponent`, the full
occupancy including the side-to-move king. -/
def MoveGenerator.get_attacks (mg : MoveGenerator) : Option MoveGenerator := do
  let own ← mg.board.own_pieces
  let opponent ← mg.board.opponent_pieces
  let occupied := own ||| opponent
  let pawnAttack ←
    match mg.board.turn with
    | .white => some black_pawn_attacks
    | .black => some white_pawn_attacks
    | .none => Option.none
  let a := attackLoop pawnAttack 64 (mg.board.pawns &&& opponent) mg.attacks
  let a := attackLoop (fun s => rook_attacks s occupied) 64 (mg.board.rooks &&& opponent) a
  let a := attackLoop knight_attacks 64 (mg.board.knights &&& opponent) a
  let a := attackLoop (fun s => bishop_attacks s occupied) 64 (mg.board.bishops &&& opponent) a
  let a := attackLoop (fun s => queen_attacks s occupied) 64 (mg.board.queens &&& opponent) a
  let a := attackLoop king_attacks 64 (mg.board.kings &&& opponent) a
  some { mg with attacks := a }

/-- `MoveGenerator::get_checkers` of src/move_generator.rs. -/
def MoveGenerator.get_checkers (mg : MoveGenerator) : Option MoveGenerator := do
  let own ← mg.board.own_pieces
  let opponent ← mg.board.opponent_pieces
  let occupied := own ||| opponent
  let (fromSquare, _) ← pop_lsb (own &&& mg.board.kings)
  let pawnCheck ←
    match mg.board.turn with
    | .white => some (white_pawn_attacks fromSquare &&& mg.board.pawns)
    | .black => some (black_pawn_attacks fromSquare &&& mg.board.pawns)
    | .none => Option.none
  some { mg with checkers :=
    (pawnCheck
      ||| (rook_attacks fromSquare occupied &&& mg.board.rooks)
      ||| (knight_attacks fromSquare &&& mg.board.knights)
      ||| (bishop_attacks fromSquare occupied &&& mg.board.bishops)
      ||| (queen_attacks fromSquare occupied &&& mg.board.queens)
      ||| (king_attacks fromSquare &&& mg.board.kings)) &&& opponent }

/-- `MoveGenerator::get_block_ray` of src/move_generator.rs. -/
def MoveGenerator.get_block_ray (mg : MoveGenerator) : Option MoveGenerator := do
  let own ← mg.board.own_pieces
  match bitscan_forward mg.checkers with
  | some checker => do
      let kingSq ← bitscan_forward (mg.board.kings &&& own)
      some { mg with block_ray := IN_BETWEEN_RAYS checker kingSq ||| mg.checkers }
  | Option.none => some { mg with block_ray := U64MASK }

/-- `MoveGenerator::xray` of src/move_generator.rs. -/
def MoveGenerator.xray (mg : MoveGenerator)
    (attack_fn : Square → Bitboard → Bitboard) (fromSquare : Square) : Option Bitboard := do
  let own ← mg.board.own_pieces
  let opponent ← mg.board.opponent_pieces
  let occupied := own ||| opponent
  let attacks := attack_fn fromSquare occupied
  let blockers := own &&& attacks
  some (attacks ^^^ attack_fn fromSquare (occupied ^^^ blockers))

/-- The pinner loop of `get_pinned`: OR the in-between squares (cut to own
pieces) for every popped pinner. -/
def pinnedLoop (kingSq : Square) (own : Bitboard) : Nat → Bitboard → Bitboard → Bitboard
  | 0, _, acc => acc
  | fuel + 1, pinner, acc =>
      match pop_lsb pinner with
      | some (pinnerSq, rest) =>
          pinnedLoop kingSq own fuel rest
            (acc ||| (IN_BETWEEN_RAYS pinnerSq kingSq &&& own))
      | Option.none => acc

/-- `MoveGenerator::get_pinned` of src/move_generator.rs. -/
def MoveGenerator.get_pinned (mg : MoveGenerator) : Option MoveGenerator := do
  let own ← mg.board.own_pieces
  let opponent ← mg.board.opponent_pieces
  let kingSq ← bitscan_forward (mg.board.kings &&& own)
  let rookXray ← mg.xray rook_attacks kingSq
  let pinner := rookXray &&& (mg.board.rooks ||| mg.board.queens) &&& opponent
  let p := pinnedLoop kingSq own 64 pinner mg.pinned
  let bishopXray ← mg.xray bishop_attacks kingSq
  let pinner := bishopXray &&& (mg.board.bishops ||| mg.board.queens) &&& opponent
  some { mg with pinned := pinnedLoop kingSq own 64 pinner p }

/-- `MoveGenerator::xray_dir` of src/move_generator.rs. -/
def MoveGenerator.xray_dir (mg : MoveGenerator) (fromSquare toSquare : Square) :
    Option Bitboard := do
  let own ← mg.board.own_pieces
  let opponent ← mg.board.opponent_pieces
  let occupied := own ||| opponent
  let dir ← Dir.from_squares fromSquare toSquare
  let attack_fn :=
    if 0 < dir.to_square then get_positive_ray_attacks else get_negative_ray_attacks
  let attacks := attack_fn fromSquare dir occupied
  let blockers := own &&& attacks
  some (attack_fn fromSquare dir (occupied ^^^ blockers))

/-- Inner target loop of `generate_white_pawn_moves`: pop each target
square and append the (possibly promotion-expanded) moves. -/
def whitePawnTargets (board : Board) (fromSquare : Square) : Nat → Bitboard → List Move
  | 0, _ => []
  | fuel + 1, bb =>
      match pop_lsb bb with
      | some (toSq, bb') =>
          let flags := i16or
            (i16or (if 0 < sqBit toSq &&& board.black_pieces then (4 : Square) else 0)
              (if toSq - fromSquare = 16 then (1 : Square) else 0))
            (if toSq = board.ep then (5 : Square) else 0)
          Move.add_promotion_if_possible fromSquare toSq flags
            ++ whitePawnTargets board fromSquare fuel bb'
      | Option.none => []

/-- Inner target loop of `generate_black_pawn_moves`. -/
def blackPawnTargets (board : Board) (fromSquare : Square) : Nat → Bitboard → List Move
  | 0, _ => []
  | fuel + 1, bb =>
      match pop_lsb bb with
      | some (toSq, bb') =>
          let flags := i16or
            (i16or (if 0 < sqBit toSq &&& board.white_pieces then (4 : Square) else 0)
              (if toSq - fromSquare = -16 then (1 : Square) else 0))
            (if toSq = board.ep then (5 : Square) else 0)
          Move.add_promotion_if_possible fromSquare toSq flags
            ++ blackPawnTargets board fromSquare fuel bb'
      | Option.none => []

/-- `MoveGenerator::white_pawn_en_passant` of src/move_generator.rs lines
543-610: adds the en-passant target to the pawn's move bitboard unless a
discovered rank attack on the king forbids it. -/
def MoveGenerator.white_pawn_en_passant (mg : MoveGenerator) (bitboard : Bitboard)
    (fromSquare : Square) : Option Bitboard := do
  let (king_square, _) ← pop_lsb (mg.board.kings &&& mg.board.white_pieces)
  let occ := mg.board.white_pieces ||| mg.board.black_pieces
  let rq := mg.board.rooks ||| mg.board.queens
  let bitboard ←
    if 0 < sqBit (fromSquare + 7) &&& (mg.block_ray ||| shl64 mg.checkers 8)
        &&& sqBit mg.board.ep &&& NOT_H_FILE then
      if king_square / 8 = 4 then do
        let dir ← Dir.from_squares king_square fromSquare
        if 0 < dir.to_square ∧
            get_positive_ray_attacks king_square dir (occ ^^^ shlI 3 (fromSquare - 1))
              &&& mg.board.black_pieces &&& rq = 0 then
          pure (bitboard ||| sqBit (fromSquare + 7))
        else if dir.to_square < 0 ∧
            get_negative_ray_attacks king_square dir (occ ^^^ shlI 3 (fromSquare - 1))
              &&& mg.board.black_pieces &&& rq = 0 then
          pure (bitboard ||| sqBit (fromSquare + 7))
        else pure bitboard
      else pure (bitboard ||| sqBit (fromSquare + 7))
    else pure bitboard
  if 0 < sqBit (fromSquare + 9) &&& (mg.block_ray ||| shl64 mg.checkers 8)
      &&& sqBit mg.board.ep &&& NOT_A_FILE then
    if king_square / 8 = 4 then do
      let dir ← Dir.from_squares king_square fromSquare
      if 0 < dir.to_square ∧
          get_positive_ray_attacks king_square dir (occ ^^^ shlI 3 fromSquare)
            &&& mg.board.black_pieces &&& (mg.board.queens ||| mg.board.rooks) = 0 then
        pure (bitboard ||| sqBit (fromSquare + 9))
      else if dir.to_square < 0 ∧
          get_negative_ray_attacks king_square dir (occ ^^^ shlI 3 fromSquare)
            &&& mg.board.black_pieces &&& (mg.board.queens ||| mg.board.rooks) = 0 then
        pure (bitboard ||| sqBit (fromSquare + 9))
      else pure bitboard
    else pure (bitboard ||| sqBit (fromSquare + 9))
  else pure bitboard

/-- `MoveGenerator::black_pawn_en_passant` of src/move_generator.rs. -/
def MoveGenerator.black_pawn_en_passant (mg : MoveGenerator) (bitboard : Bitboard)
    (fromSquare : Square) : Option Bitboard := do
  let (king_square, _) ← pop_lsb (mg.board.kings &&& mg.board.black_pieces)
  let occ := mg.board.white_pieces ||| mg.board.black_pieces
  let rq := mg.board.rooks ||| mg.board.queens
  let bitboard ←
    if 0 < sqBit (fromSquare - 7) &&& (mg.block_ray ||| (mg.checkers >>> 8))
        &&& sqBit mg.board.ep &&& NOT_A_FILE then
      if king_square / 8 = 3 then do
        let dir ← Dir.from_squares king_square fromSquare
        if 0 < dir.to_square ∧
            get_positive_ray_attacks king_square dir (occ ^^^ shlI 3 fromSquare)
              &&& mg.board.white_pieces &&& rq = 0 then
          pure (bitboard ||| sqBit (fromSquare - 7))
        else if dir.to_square < 0 ∧
            get_negative_ray_attacks king_square dir (occ ^^^ shlI 3 fromSquare)
              &&& mg.board.white_pieces &&& rq = 0 then
          pure (bitboard ||| sqBit (fromSquare - 7))
        else pure bitboard
      else pure (bitboard ||| sqBit (fromSquare - 7))
    else pure bitboard
  if 0 < sqBit (fromSquare - 9) &&& (mg.block_ray ||| (mg.checkers >>> 8))
      &&& sqBit mg.board.ep &&& NOT_H_FILE then
    if king_square / 8 = 3 then do
      let dir ← Dir.from_squares king_square fromSquare
      if 0 < dir.to_square ∧
          get_positive_ray_attacks king_square dir (occ ^^^ shlI 3 (fromSquare - 1))
            &&& mg.board.white_pieces &&& rq = 0 then
        pure (bitboard ||| sqBit (fromSquare - 9))
      else if dir.to_square < 0 ∧
          get_negative_ray_attacks king_square dir (occ ^^^ shlI 3 (fromSquare - 1))
            &&& mg.board.white_pieces &&& rq = 0 then
        pure (bitboard ||| sqBit (fromSquare - 9))
      else pure bitboard
    else pure (bitboard ||| sqBit (fromSquare - 9))
  else pure bitboard

/-- Outer loop of `generate_white_pawn_moves` popping each white pawn. -/
def MoveGenerator.whitePawnLoop (mg : MoveGenerator) (blockers free : Bitboard) :
    Nat → Bitboard → Option (List Move)
  | 0, _ => some []
  | fuel + 1, pawns => do
      match pop_lsb pawns with
      | some (fromSquare, rest) =>
          let bb : Bitboard := 0
          let bb :=
            if 0 < sqBit (fromSquare + 8) &&& mg.block_ray &&& free then
              bb ||| sqBit (fromSquare + 8)
            else bb
          let bb :=
            if 0 < sqBit (fromSquare + 7) &&& mg.block_ray &&& mg.board.black_pieces
                &&& NOT_H_FILE then bb ||| sqBit (fromSquare + 7)
            else bb
          let bb :=
            if 0 < sqBit (fromSquare + 9) &&& mg.block_ray &&& mg.board.black_pieces
                &&& NOT_A_FILE then bb ||| sqBit (fromSquare + 9)
            else bb
          let bb :=
            if fromSquare / 8 = 1 ∧ (sqBit (fromSquare + 8) ||| sqBit (fromSquare + 16))
                &&& blockers = 0 ∧ 0 < mg.block_ray &&& sqBit (fromSquare + 16) then
              bb ||| sqBit (fromSquare + 16)
            else bb
          let bb ←
            if mg.board.ep ≠ -1 then mg.white_pawn_en_passant bb fromSquare else pure bb
          let bb ←
            if 0 < sqBit fromSquare &&& mg.pinned then do
              let kingSq ← bitscan_forward (mg.board.kings &&& mg.board.white_pieces)
              let x ← mg.xray_dir kingSq fromSquare
              pure (bb &&& x)
            else pure bb
          let ms := whitePawnTargets mg.board fromSquare 64 bb
          let msRest ← mg.whitePawnLoop blockers free fuel rest
          pure (ms ++ msRest)
      | Option.none => pure []

/-- Outer loop of `generate_black_pawn_moves`. -/
def MoveGenerator.blackPawnLoop (mg : MoveGenerator) (blockers free : Bitboard) :
    Nat → Bitboard → Option (List Move)
  | 0, _ => some []
  | fuel + 1, pawns => do
      match pop_lsb pawns with
      | some (fromSquare, rest) =>
          let bb : Bitboard := 0
          let bb :=
            if 0 < sqBit (fromSquare - 8) &&& mg.block_ray &&& free then
              bb ||| sqBit (fromSquare - 8)
            else bb
          let bb :=
            if 0 < sqBit (fromSquare - 7) &&& mg.block_ray &&& mg.board.white_pieces
                &&& NOT_A_FILE then bb ||| sqBit (fromSquare - 7)
            else bb
          let bb :=
            if 0 < sqBit (fromSquare - 9) &&& mg.block_ray &&& mg.board.white_pieces
                &&& NOT_H_FILE then bb ||| sqBit (fromSquare - 9)
            else bb
          let bb :=
            if fromSquare / 8 = 6 ∧ (sqBit (fromSquare - 8) ||| sqBit (fromSquare - 16))
                &&& blockers = 0 ∧ 0 < mg.block_ray &&& sqBit (fromSquare - 16) then
              bb ||| sqBit (fromSquare - 16)
            else bb
          let bb ←
            if mg.board.ep ≠ -1 then mg.black_pawn_en_passant bb fromSquare else pure bb
          let bb ←
            if 0 < sqBit fromSquare &&& mg.pinned then do
              let kingSq ← bitscan_forward (mg.board.kings &&& mg.board.black_pieces)
              let x ← mg.xray_dir kingSq fromSquare
              pure (bb &&& x)
            else pure bb
          let ms := blackPawnTargets mg.board fromSquare 64 bb
          let msRest ← mg.blackPawnLoop blockers free fuel rest
          pure (ms ++ msRest)
      | Option.none => pure []

/-- `MoveGenerator::generate_white_pawn_moves` / `generate_black_pawn_moves`
dispatched by `generate_pawn_moves`. -/
def MoveGenerator.generate_pawn_moves (mg : MoveGenerator) : Option (List Move) :=
  match mg.board.turn with
  | .white =>
      let blockers := mg.board.white_pieces ||| mg.board.black_pieces
      mg.whitePawnLoop blockers (compl64 blockers) 64
        (mg.board.pawns &&& mg.board.white_pieces)
  | .black =>
      let blockers := mg.board.white_pieces ||| mg.board.black_pieces
      mg.blackPawnLoop blockers (compl64 blockers) 64
        (mg.board.pawns &&& mg.board.black_pieces)
  | .none => Option.none

/-- Inner target loop shared by the rook/knight/bishop/queen/king
generators: push `Move::new(from, to, capture-flag)` per popped target. -/
def pieceTargets (opponent : Bitboard) (fromSquare : Square) : Nat → Bitboard → List Move
  | 0, _ => []
  | fuel + 1, bb =>
      match pop_lsb bb with
      | some (toSq, bb') =>
          Move.new fromSquare toSq (if 0 < sqBit toSq &&& opponent then 4 else 0)
            :: pieceTargets opponent fromSquare fuel bb'
      | Option.none => []

/-- Outer loop shared by `generate_rook_moves`, `generate_bishop_moves` and
`generate_queen_moves`: attack set cut to `block_ray` and `free`, with the
pin restriction through `xray_dir`. -/
def MoveGenerator.sliderLoop (mg : MoveGenerator) (own opponent occupied free : Bitboard)
    (attack_fn : Square → Bitboard → Bitboard) : Nat → Bitboard → Option (List Move)
  | 0, _ => some []
  | fuel + 1, pieces => do
      match pop_lsb pieces with
      | some (fromSquare, rest) =>
          let bb := attack_fn fromSquare occupied &&& mg.block_ray &&& free
          let bb ←
            if 0 < sqBit fromSquare &&& mg.pinned then do
              let kingSq ← bitscan_forward (mg.board.kings &&& own)
              let x ← mg.xray_dir kingSq fromSquare
              pure (bb &&& x)
            else pure bb
          let ms := pieceTargets opponent fromSquare 64 bb
          let msRest ← mg.sliderLoop own opponent occupied free attack_fn fuel rest
          pure (ms ++ msRest)
      | Option.none => pure []

/-- `MoveGenerator::generate_rook_moves`. -/
def MoveGenerator.generate_rook_moves (mg : MoveGenerator) : Option (List Move) := do
  let own ← mg.board.own_pieces
  let opponent ← mg.board.opponent_pieces
  let occupied := own ||| opponent
  mg.sliderLoop own opponent occupied (compl64 own) rook_attacks 64 (mg.board.rooks &&& own)

/-- Knight target loop of `generate_knight_moves` (no pin filter: pinned
knights are excluded from the source bitboard). -/
def MoveGenerator.knightLoop (mg : MoveGenerator) (opponent free : Bitboard) :
    Nat → Bitboard → List Move
  | 0, _ => []
  | fuel + 1, knights =>
      match pop_lsb knights with
      | some (fromSquare, rest) =>
          let bb := knight_attacks fromSquare &&& mg.block_ray &&& free
          pieceTargets opponent fromSquare 64 bb
            ++ mg.knightLoop opponent free fuel rest
      | Option.none => []

/-- `MoveGenerator::generate_knight_moves`. -/
def MoveGenerator.generate_knight_moves (mg : MoveGenerator) : Option (List Move) := do
  let own ← mg.board.own_pieces
  let opponent ← mg.board.opponent_pieces
  some (mg.knightLoop opponent (compl64 own) 64
    (mg.board.knights &&& own &&& compl64 mg.pinned))

/-- `MoveGenerator::generate_bishop_moves`. -/
def MoveGenerator.generate_bishop_moves (mg : MoveGenerator) : Option (List Move) := do
  let own ← mg.board.own_pieces
  let opponent ← mg.board.opponent_pieces
  let occupied := own ||| opponent
  mg.sliderLoop own opponent occupied (compl64 own) bishop_attacks 64
    (mg.board.bishops &&& own)

/-- `MoveGenerator::generate_queen_moves`. -/
def MoveGenerator.generate_queen_moves (mg : MoveGenerator) : Option (List Move) := do
  let own ← mg.board.own_pieces
  let opponent ← mg.board.opponent_pieces
  let occupied := own ||| opponent
  mg.sliderLoop own opponent occupied (compl64 own) queen_attacks 64
    (mg.board.queens &&& own)

/-- The checker loop of `generate_king_moves`: for each popped non-pawn
checker that is ray-aligned with the king, clear the square directly
beyond the king on that ray from the king's target bitboard.  The loop
consumes `self.checkers` (it is left at 0).  When the beyond square falls
off the board its bit is 0 and the mask is a no-op, which coincides with
the release-mode behaviour of the source's `1 << from + dir.to_square()`
for every square the king could actually reach. -/
def kingCheckerLoop (board : Board) (fromSquare : Square) :
    Nat → Bitboard → Bitboard → Bitboard × Bitboard
  | 0, ck, bb => (bb, ck)
  | fuel + 1, ck, bb =>
      match pop_lsb ck with
      | some (checker_square, ck') =>
          let bb :=
            if sqBit checker_square &&& board.pawns = 0 then
              match Dir.from_squares checker_square fromSquare with
              | some dir => bb &&& compl64 (sqBit (fromSquare + dir.to_square))
              | Option.none => bb
            else bb
          kingCheckerLoop board fromSquare fuel ck' bb
      | Option.none => (bb, ck)

/-- `MoveGenerator::generate_king_moves` of src/move_generator.rs lines
879-936, castling included. -/
def MoveGenerator.generate_king_moves (mg : MoveGenerator) :
    Option (MoveGenerator × List Move) := do
  let own ← mg.board.own_pieces
  let opponent ← mg.board.opponent_pieces
  let occupied := own ||| opponent
  let free := compl64 own
  let (fromSquare, _) ← pop_lsb (mg.board.kings &&& own)
  let bb := king_attacks fromSquare &&& free &&& compl64 mg.attacks
  let (bb, checkers') := kingCheckerLoop mg.board fromSquare 64 mg.checkers bb
  let ms := pieceTargets opponent fromSquare 64 bb
  let ms ←
    match mg.board.turn with
    | .white =>
        let ms :=
          if 0 < mg.board.castling_rights &&& 8 ∧ occupied &&& 0x60 = 0 ∧
              compl64 mg.attacks &&& 0x70 = 0x70 then
            ms ++ [Move.new fromSquare (fromSquare + 2) 2]
          else ms
        let ms :=
          if 0 < mg.board.castling_rights &&& 4 ∧ occupied &&& 0x0E = 0 ∧
              compl64 mg.attacks &&& 0x1C = 0x1C then
            ms ++ [Move.new fromSquare (fromSquare - 2) 3]
          else ms
        some ms
    | .black =>
        let ms :=
          if 0 < mg.board.castling_rights &&& 2 ∧ occupied &&& (0x60 <<< 56) = 0 ∧
              compl64 mg.attacks &&& (0x70 <<< 56) = 0x70 <<< 56 then
            ms ++ [Move.new fromSquare (fromSquare + 2) 2]
          else ms
        let ms :=
          if 0 < mg.board.castling_rights &&& 1 ∧ occupied &&& (0x0E <<< 56) = 0 ∧
              compl64 mg.attacks &&& (0x1C <<< 56) = 0x1C <<< 56 then
            ms ++ [Move.new fromSquare (fromSquare - 2) 3]
          else ms
        some ms
    | .none => Option.none
  some ({ mg with checkers := checkers' }, ms)

/-- `MoveGenerator::generate_moves` of src/move_generator.rs lines 324-358.
Returns the move list with the `in_check` flag, together with the board the
`&mut Board` reference holds when the function returns. -/
def MoveGenerator.generate_moves (board : Board) : Option (MoveGeneratorResult × Board) := do
  let mg : MoveGenerator :=
    { board := board, attacks := 0, checkers := 0, block_ray := 0, pinned := 0 }
  let mg ← mg.get_attacks
  let mg ← mg.get_checkers
  let mg ← mg.get_block_ray
  let mg ← mg.get_pinned
  let in_check := 0 < mg.checkers
  let ms ←
    if count_ones mg.checkers ≠ 2 then do
      let pawnMoves ← mg.generate_pawn_moves
      let rookMoves ← mg.generate_rook_moves
      let knightMoves ← mg.generate_knight_moves
      let bishopMoves ← mg.generate_bishop_moves
      let queenMoves ← mg.generate_queen_moves
      pure (pawnMoves ++ rookMoves ++ knightMoves ++ bishopMoves ++ queenMoves)
    else pure []
  let (mg, kingMoves) ← mg.generate_king_moves
  some (⟨ms ++ kingMoves, in_check⟩, mg.board)

/-- `Board::generate_moves` of src/move_generator.rs lines 231-235: the
public entry point, delegating to `MoveGenerator::generate_moves` with the
board passed by mutable reference. -/
def Board.generate_moves (b : Board) : Option (MoveGeneratorResult × Board) :=
  MoveGenerator.generate_moves b

/-! ### Search (src/search.rs, src/uci.rs) -/

/-- `Status` of src/uci.rs. -/
inductive Status where
  | idle
  | go
  | stopping
deriving DecidableEq

/-- `NodeKind` of src/search.rs. -/
inductive NodeKind where
  | pv
  | cut
  | all
  | stopped
deriving DecidableEq

/-- `Score` of src/search.rs. -/
inductive Score where
  | ownMate (ply : Nat)
  | oppMate (ply : Nat)
  | score (s : Int)
  | draw (ply : Nat)
  | stop
deriving DecidableEq

/-- `impl PartialOrd for Score` of src/search.rs lines 88-110.  The source
always returns `Some(ordering)`; the match arms are translated in order. -/
def Score.cmp : Score → Score → Ordering
  | .stop, _ => .lt
  | _, .stop => .gt
  | .ownMate ply1, .ownMate ply2 => compare ply2 ply1
  | .ownMate _, _ => .gt
  | .oppMate ply1, .oppMate ply2 => compare ply1 ply2
  | .oppMate _, _ => .lt
  | _, .ownMate _ => .lt
  | _, .oppMate _ => .gt
  | .score score1, .score score2 => compare score1 score2
  | .score s, .draw _ => compare s 0
  | .draw _, .score s => compare 0 s
  | .draw _, .draw _ => .eq

/-- Rust `a > b` through the `PartialOrd` instance. -/
def Score.sgt (a b : Score) : Bool := a.cmp b = .gt

/-- Rust `a >= b` through the `PartialOrd` instance. -/
def Score.sge (a b : Score) : Bool := a.cmp b = .gt ∨ a.cmp b = .eq

/-- Rust `a < b` through the `PartialOrd` instance. -/
def Score.slt (a b : Score) : Bool := a.cmp b = .lt

/-- Rust `a <= b` through the `PartialOrd` instance. -/
def Score.sle (a b : Score) : Bool := a.cmp b = .lt ∨ a.cmp b = .eq

/-- `impl Add for Score` of src/search.rs, match arms in source order. -/
def Score.add : Score → Score → Score
  | .stop, _ => .stop
  | _, .stop => .stop
  | .ownMate ply1, .ownMate ply2 => .ownMate (min ply1 ply2)
  | .ownMate ply1, .oppMate ply2 =>
      if ply1 < ply2 then .ownMate ply1 else .oppMate ply2
  | .ownMate ply1, _ => .ownMate ply1
  | .oppMate ply1, .oppMate ply2 => .oppMate (min ply1 ply2)
  | .oppMate ply1, .ownMate ply2 =>
      if ply1 < ply2 then .oppMate ply1 else .ownMate ply2
  | .oppMate ply1, .draw ply2 =>
      if ply1 < ply2 then .oppMate ply1 else .draw ply2
  | .oppMate ply1, _ => .oppMate ply1
  | _, .ownMate ply2 => .ownMate ply2
  | _, .oppMate ply2 => .oppMate ply2
  | .score score1, .score score2 => .score (score1 + score2)
  | .score _, .draw ply2 => .draw ply2
  | .draw ply1, .score _ => .draw ply1
  | .draw ply1, .draw ply2 => .draw (min ply1 ply2)

/-- `impl Sub for Score` of src/search.rs, match arms in source order. -/
def Score.sub : Score → Score → Score
  | .stop, _ => .stop
  | _, .stop => .stop
  | .ownMate ply1, .ownMate ply2 => .ownMate (min ply1 ply2)
  | .ownMate ply1, .oppMate ply2 =>
      if ply1 < ply2 then .ownMate ply1 else .oppMate ply2
  | .ownMate ply1, _ => .ownMate ply1
  | .oppMate ply1, .oppMate ply2 => .oppMate (min ply1 ply2)
  | .oppMate ply1, .ownMate ply2 =>
      if ply1 < ply2 then .oppMate ply1 else .ownMate ply2
  | .oppMate ply1, .draw ply2 =>
      if ply1 < ply2 then .oppMate ply1 else .draw ply2
  | .oppMate ply1, _ => .oppMate ply1
  | _, .ownMate ply2 => .ownMate ply2
  | _, .oppMate ply2 => .oppMate ply2
  | .score score1, .score score2 => .score (score1 - score2)
  | .score _, .draw ply2 => .draw ply2
  | .draw ply1, .score _ => .draw ply1
  | .draw ply1, .draw ply2 => .draw (min ply1 ply2)

/-- `impl Mul<i64> for Score` of src/search.rs. -/
def Score.mul (a : Score) (rhs : Int) : Score :=
  match a with
  | .score s =>
      if 10000 < s * rhs then .ownMate 0
      else if s * rhs < -10000 then .oppMate 0
      else .score (s * rhs)
  | _ => a

/-- `impl Neg for Score` of src/search.rs. -/
def Score.neg : Score → Score
  | .ownMate ply => .oppMate ply
  | .oppMate ply => .ownMate ply
  | .score s => .score (-s)
  | .draw ply => .draw ply
  | .stop => .stop

/-- `Score::flip_score` of src/search.rs. -/
def Score.flip_score : Score → Score
  | .ownMate ply => .ownMate ply
  | .oppMate ply => .oppMate ply
  | .score s => .score (-s)
  | .draw ply => .draw ply
  | .stop => .stop

/-- `Score::inc` of src/search.rs. -/
def Score.inc : Score → Score
  | .ownMate ply => .ownMate (ply + 1)
  | .oppMate ply => .oppMate (ply + 1)
  | .score s => .score s
  | .draw ply => .draw (ply + 1)
  | .stop => .stop

/-- `TTNode` of src/search.rs. -/
structure TTNode where
  best_move : Move
  depth : Nat
  score : Score
  kind : NodeKind
deriving DecidableEq

/-- Transposition-table lookup (`HashMap::get`): first entry with the key.
The table is a list of entries, most recent first, so prepending an entry
has the `HashMap::insert` overwrite semantics. -/
def ttGet (tt : List (Nat × TTNode)) (k : Nat) : Option TTNode :=
  (tt.find? (fun e => e.1 == k)).map (fun e => e.2)

/-- `Search` of src/search.rs (the fields relevant to the core: the timing
and channel fields are dropped, the `stopper` is the `Status` value the
shared lock currently holds). -/
structure Search where
  pv : Move
  depth : Nat
  board : Board
  tt : List (Nat × TTNode)
  tt_hits : Nat
  nodes : Nat
  score : Score
  stopper : Status

/-- `Search::new` of src/search.rs. -/
def Search.new (stopper : Status) (board : Board) : Search :=
  { pv := Move.NULL, depth := 0, board := board, tt := [], tt_hits := 0,
    nodes := 0, score := Score.score 0, stopper := stopper }

def WHITE_PAWN_SQUARE_TABLE : List Int :=
  [0, 0, 0, 0, 0, 0, 0, 0, 5, 10, 10, -20, -20, 10, 10, 5, 5, -5, -10, 0, 0, -10, -5, 5, 0, 0,
   0, 20, 20, 0, 0, 0, 5, 5, 10, 25, 25, 10, 5, 5, 10, 10, 20, 30, 30, 20, 10, 10, 50, 50, 50,
   50, 50, 50, 50, 50, 0, 0, 0, 0, 0, 0, 0, 0]

def BLACK_PAWN_SQUARE_TABLE : List Int :=
  [0, 0, 0, 0, 0, 0, 0, 0, 50, 50, 50, 50, 50, 50, 50, 50, 10, 10, 20, 30, 30, 20, 10, 10, 5,
   5, 10, 25, 25, 10, 5, 5, 0, 0, 0, 20, 20, 0, 0, 0, 5, -5, -10, 0, 0, -10, -5, 5, 5, 10, 10,
   -20, -20, 10, 10, 5, 0, 0, 0, 0, 0, 0, 0, 0]

def KNIGHT_SQUARE_TABLE : List Int :=
  [-50, -40, -30, -30, -30, -30, -40, -50, -40, -20, 0, 5, 5, 0, -20, -40, -30, 5, 10, 15, 15,
   10, 5, -30, -30, 0, 15, 20, 20, 15, 0, -30, -30, 5, 15, 20, 20, 15, 5, -30, -30, 0, 10, 15,
   15, 10, 0, -30, -40, -20, 0, 0, 0, 0, -20, -40, -50, -40, -30, -30, -30, -30, -40, -50]

def WHITE_BISHOP_SQUARE_TABLE : List Int :=
  [-20, -10, -10, -10, -10, -10, -10, -20, -10, 5, 0, 0, 0, 0, 5, -10, -10, 10, 10, 10, 10,
   10, 10, -10, -10, 0, 10, 10, 10, 10, 0, -10, -10, 5, 5, 10, 10, 5, 5, -10, -10, 0, 5, 10,
   10, 5, 0, -10, -10, 0, 0, 0, 0, 0, 0, -10, -20, -10, -10, -10, -10, -10, -10, -20]

def BLACK_BISHOP_SQUARE_TABLE : List Int :=
  [-20, -10, -10, -10, -10, -10, -10, -20, -10, 0, 0, 0, 0, 0, 0, -10, -10, 0, 5, 10, 10, 5,
   0, -10, -10, 5, 5, 10, 10, 5, 5, -10, -10, 0, 10, 10, 10, 10, 0, -10, -10, 10, 10, 10, 10,
   10, 10, -10, -10, 5, 0, 0, 0, 0, 5, -10, -20, -10, -10, -10, -10, -10, -10, -20]

def WHITE_ROOK_SQUARE_TABLE : List Int :=
  [0, 0, 0, 5, 5, 0, 0, 0, -5, 0, 0, 0, 0, 0, 0, -5, -5, 0, 0, 0, 0, 0, 0, -5, -5, 0, 0, 0, 0,
   0, 0, -5, -5, 0, 0, 0, 0, 0, 0, -5, -5, 0, 0, 0, 0, 0, 0, -5, 5, 10, 10, 10, 10, 10, 10, 5,
   0, 0, 0, 0, 0, 0, 0, 0]

def BLACK_ROOK_SQUARE_TABLE : List Int :=
  [0, 0, 0, 0, 0, 0, 0, 0, 5, 10, 10, 10, 10, 10, 10, 5, -5, 0, 0, 0, 0, 0, 0, -5, -5, 0, 0,
   0, 0, 0, 0, -5, -5, 0, 0, 0, 0, 0, 0, -5, -5, 0, 0, 0, 0, 0, 0, -5, -5, 0, 0, 0, 0, 0, 0,
   -5, 0, 0, 0, 5, 5, 0, 0, 0]

def WHITE_QUEEN_SQUARE_TABLE : List Int :=
  [-20, -10, -10, -5, -5, -10, -10, -20, -10, 0, 5, 0, 0, 0, 0, -10, -10, 5, 5, 5, 5, 5, 0,
   -10, 0, 0, 5, 5, 5, 5, 0, -5, -5, 0, 5, 5, 5, 5, 0, -5, -10, 0, 5, 5, 5, 5, 0, -10, -10, 0,
   0, 0, 0, 0, 0, -10, -20, -10, -10, -5, -5, -10, -10, -20]

def BLACK_QUEEN_SQUARE_TABLE : List Int :=
  [-20, -10, -10, -5, -5, -10, -10, -20, -10, 0, 0, 0, 0, 0, 0, -10, -10, 0, 5, 5, 5, 5, 0,
   -10, -5, 0, 5, 5, 5, 5, 0, -5, 0, 0, 5, 5, 5, 5, 0, -5, -10, 5, 5, 5, 5, 5, 0, -10, -10, 0,
   5, 0, 0, 0, 0, -10, -20, -10, -10, -5, -5, -10, -10, -20]

def WHITE_KING_SQUARE_TABLE : List Int :=
  [20, 30, 10, 0, 0, 10, 30, 20, 20, 20, 0, 0, 0, 0, 20, 20, -10, -20, -20, -20, -20, -20,
   -20, -10, -20, -30, -30, -40, -40, -30, -30, -20, -30, -40, -40, -50, -50, -40, -40, -30,
   -30, -40, -40, -50, -50, -40, -40, -30, -30, -40, -40, -50, -50, -40, -40, -30, -30, -40,
   -40, -50, -50, -40, -40, -30]

def BLACK_KING_SQUARE_TABLE : List Int :=
  [-30, -40, -40, -50, -50, -40, -40, -30, -30, -40, -40, -50, -50, -40, -40, -30, -30, -40,
   -40, -50, -50, -40, -40, -30, -30, -40, -40, -50, -50, -40, -40, -30, -20, -30, -30, -40,
   -40, -30, -30, -20, -10, -20, -20, -20, -20, -20, -20, -10, 20, 20, 0, 0, 0, 0, 20, 20, 20,
   30, 10, 0, 0, 10, 30, 20]

/-- The square table selected in `square_table_scores`; the wildcard arm of
the source match is `unreachable!()`. -/
def squareTableFor (p : Piece) : Option (List Int) :=
  match p.color, p.kind with
  | .white, .pawn => some WHITE_PAWN_SQUARE_TABLE
  | .black, .pawn => some BLACK_PAWN_SQUARE_TABLE
  | .white, .rook => some WHITE_ROOK_SQUARE_TABLE
  | .black, .rook => some BLACK_ROOK_SQUARE_TABLE
  | .white, .knight => some KNIGHT_SQUARE_TABLE
  | .black, .knight => some KNIGHT_SQUARE_TABLE
  | .white, .bishop => some WHITE_BISHOP_SQUARE_TABLE
  | .black, .bishop => some BLACK_BISHOP_SQUARE_TABLE
  | .white, .queen => some WHITE_QUEEN_SQUARE_TABLE
  | .black, .queen => some BLACK_QUEEN_SQUARE_TABLE
  | .white, .king => some WHITE_KING_SQUARE_TABLE
  | .black, .king => some BLACK_KING_SQUARE_TABLE
  | _, _ => Option.none

/-- `Search::material_scores` of src/search.rs. -/
def materialScores (board : Board) : Score :=
  Score.score ((List.range 64).foldl (fun acc sq => acc + (board.get_piece (sq : Int)).score) 0)

/-- `Search::square_table_scores` of src/search.rs (`Piece::NONE` is the
default piece, both components `None`). -/
def squareTableScores (board : Board) : Option Score := do
  let total ← (List.range 64).foldlM (fun (acc : Int) (sq : Nat) => do
      let piece := board.get_piece (sq : Int)
      if piece ≠ Piece.new then do
        let tbl ← squareTableFor piece
        let mult ←
          match piece.color with
          | .white => some (1 : Int)
          | .black => some (-1 : Int)
          | .none => Option.none
        pure (acc + tbl.getD sq 0 * mult)
      else pure acc) 0
  pure (Score.score total)

/-- `Search::checkmate_stalemate` of src/search.rs; the generated move list
travels through the `&mut` board, which is threaded explicitly. -/
def Search.checkmate_stalemate (st : Search) : Option (Score × Search) := do
  let (moves, b') ← Board.generate_moves st.board
  let st := { st with board := b' }
  let sc :=
    if moves.moves.isEmpty then
      if moves.in_check then Score.oppMate 0 else Score.draw 0
    else Score.score 0
  match st.board.turn with
  | .white => some (sc, st)
  | .black => some (sc.flip_score, st)
  | .none => Option.none

/-- `Search::eval` of src/search.rs. -/
def Search.eval (st : Search) : Option (Score × Search) := do
  let sc := (Score.score 0).add (materialScores st.board)
  let sts ← squareTableScores st.board
  let sc := sc.add sts
  let (cm, st) ← st.checkmate_stalemate
  let sc := sc.add cm
  match st.board.turn with
  | .white => some (sc, st)
  | .black => some (sc.flip_score, st)
  | .none => Option.none

/-- `Search::mvv_lva` of src/search.rs. -/
def mvv_lva (board : Board) (a b : Move) : Ordering :=
  if a.is_capture ∧ ¬ b.is_capture then .lt
  else if ¬ a.is_capture ∧ b.is_capture then .gt
  else if a.is_capture ∧ b.is_capture then
    if (board.get_piece b.toSq).value < (board.get_piece a.toSq).value then .lt
    else if (board.get_piece a.toSq).value < (board.get_piece b.toSq).value then .gt
    else compare (board.get_piece a.fromSq).value (board.get_piece b.fromSq).value
  else .eq

instance : Inhabited Move := ⟨Move.NULL⟩

/-- Inner `j` loop of `MoveGeneratorResult::sort_by`. -/
def sortInner (cmp : Move → Move → Ordering) (i : Nat) : Nat → Nat → Array Move → Array Move
  | 0, _, arr => arr
  | fuel + 1, j, arr =>
      if j < arr.size then
        let arr := if cmp arr[i]! arr[j]! = .gt then arr.swap! i j else arr
        sortInner cmp i fuel (j + 1) arr
      else arr

/-- Outer `i` loop of `MoveGeneratorResult::sort_by`. -/
def sortOuter (cmp : Move → Move → Ordering) : Nat → Nat → Array Move → Array Move
  | 0, _, arr => arr
  | fuel + 1, i, arr =>
      if i < arr.size then
        sortOuter cmp fuel (i + 1) (sortInner cmp i arr.size (i + 1) arr)
      else arr

/-- `MoveGeneratorResult::sort_by` of src/move_generator.rs: the in-place
exchange sort over the `len` filled slots, applied to the move list. -/
def sort_by (cmp : Move → Move → Ordering) (ms : List Move) : List Move :=
  (sortOuter cmp ms.length 0 ms.toArray).toList

/-- The `for m in moves` loop of `Search::quiescence_search`.  `child`
evaluates the recursive call (the surrounding quiescence search with one
less fuel). -/
def qLoop (child : Search → Score → Score → Option (Score × Search)) :
    List Move → Search → Score → Score → Score → Option (Score × Search)
  | [], st, _, _, best => some (best, st)
  | m :: rest, st, alpha, beta, best => do
      let b' ← st.board.make_move m
      let st := { st with board := b' }
      let (cs, st) ← child st beta.neg alpha.neg
      let score := (cs.inc).neg
      let b' ← st.board.unmake_move m
      let st := { st with board := b' }
      let (best, alpha) :=
        if score.sgt best then (score, if score.sgt alpha then score else alpha)
        else (best, alpha)
      if score.sge beta then some (best, st)
      else qLoop child rest st alpha beta best

/-- `Search::quiescence_search` of src/search.rs lines 581-616, with a fuel
bound on the recursion depth (the capture chains of any run we evaluate are
far shorter than the fuel; exhausted fuel is `none`). -/
def quiescence_search : Nat → Search → Score → Score → Option (Score × Search)
  | 0, _, _, _ => Option.none
  | fuel + 1, st, alpha, beta => do
      let st := { st with nodes := st.nodes + 1 }
      if st.stopper = Status.stopping then some (Score.stop, st)
      else do
        let (e, st) ← st.eval
        let best := e
        if best.sge beta then some (best, st)
        else
          let alpha := if best.sgt alpha then best else alpha
          do
            let (mr, b') ← Board.generate_moves st.board
            let st := { st with board := b' }
            let moves := mr.moves.filter (fun e => e.is_capture)
            let moves := sort_by (mvv_lva st.board) moves
            qLoop (quiescence_search fuel) moves st alpha beta best

/-- Outcome of the move loop of `Search::negamax`: either a beta-cutoff at
the move that caused it (the early `return` of the source), or the final
accumulator state. -/
inductive LoopOut where
  | cutAt (m : Move) (score : Score) (st : Search)
  | done (best_score : Score) (best_move : Move) (alpha : Score) (st : Search)

/-- The `for m in moves` loop of `Search::negamax` (src/search.rs lines
661-687).  On `score >= beta` it inserts a `Cut` entry recording the
current `best_move` accumulator and returns; otherwise it updates the
best score, best move, `pv` (at the root depth) and `alpha`. -/
def negamaxLoop (depth : Nat) (beta : Score)
    (child : Search → Score → Score → Option (Score × NodeKind × Search)) :
    List Move → Search → Score → Score → Move → Option LoopOut
  | [], st, alpha, best_score, best_move => some (.done best_score best_move alpha st)
  | m :: rest, st, alpha, best_score, best_move => do
      let b' ← st.board.make_move m
      let st := { st with board := b' }
      let (cs, _, st) ← child st beta.neg alpha.neg
      let score := (cs.inc).neg
      let b' ← st.board.unmake_move m
      let st := { st with board := b' }
      if score.sge beta then
        let st := { st with tt := (st.board.zobrist_hash,
          { best_move := best_move, depth := depth, score := score, kind := NodeKind.cut })
            :: st.tt }
        some (.cutAt m score st)
      else
        let (best_score, best_move, alpha, st) :=
          if score.sgt best_score then
            let st :=
              if score.sgt alpha ∧ depth = st.depth then { st with pv := m } else st
            (score, m, if score.sgt alpha then score else alpha, st)
          else (best_score, best_move, alpha, st)
        negamaxLoop depth beta child rest st alpha best_score best_move

/-- `Search::negamax` of src/search.rs lines 618-712. -/
def negamax : Nat → Search → Score → Score → Option (Score × NodeKind × Search)
  | depth, st, alpha, beta => do
      let st := { st with nodes := st.nodes + 1 }
      if st.stopper = Status.stopping then some (Score.stop, NodeKind.stopped, st)
      else do
        let (earlyRet, tt_best_move, st) ←
          match ttGet st.tt st.board.zobrist_hash with
          | some tt_node =>
              if depth ≤ tt_node.depth then
                let st := { st with tt_hits := st.tt_hits + 1 }
                match tt_node.kind with
                | .pv => some (some (tt_node.score, tt_node.kind), Option.none, st)
                | .cut =>
                    if tt_node.score.sge beta then
                      some (some (tt_node.score, tt_node.kind), Option.none, st)
                    else some (Option.none, Option.none, st)
                | .all =>
                    if tt_node.score.sle alpha then
                      some (some (tt_node.score, tt_node.kind), Option.none, st)
                    else some (Option.none, Option.none, st)
                | .stopped => Option.none
              else if tt_node.kind = NodeKind.pv ∨ tt_node.kind = NodeKind.cut then
                some (Option.none, some tt_node.best_move, st)
              else some (Option.none, Option.none, st)
          | Option.none => some (Option.none, Option.none, st)
        match earlyRet with
        | some (s, k) => some (s, k, st)
        | Option.none =>
            match depth with
            | 0 => do
                let (s, st) ← quiescence_search 64 st alpha beta
                some (s, NodeKind.pv, st)
            | d + 1 => do
                let (mr, b') ← Board.generate_moves st.board
                let st := { st with board := b' }
                let in_check := mr.in_check
                let moves := sort_by (fun a b =>
                    match tt_best_move with
                    | some bm =>
                        if a = bm then .lt
                        else if b = bm then .gt
                        else mvv_lva st.board a b
                    | Option.none => mvv_lva st.board a b) mr.moves
                let out ← negamaxLoop (d + 1) beta (negamax d) moves st alpha
                  (Score.oppMate 0) Move.NULL
                match out with
                | .cutAt _ score st => some (score, NodeKind.cut, st)
                | .done best_score best_move alpha st =>
                    let best_score :=
                      if best_move = Move.NULL then
                        if in_check then Score.oppMate 0 else Score.draw 0
                      else best_score
                    let node_kind :=
                      if best_score.slt alpha then NodeKind.all else NodeKind.pv
                    let st := { st with tt := (st.board.zobrist_hash,
                      { best_move := best_move, depth := d + 1, score := best_score,
                        kind := node_kind }) :: st.tt }
                    some (best_score, node_kind, st)

/-- The aspiration-window loop inside `Search::go` (the `loop { ... }` of
src/search.rs lines 350-379), with fuel for the re-search iterations.  The
debug re-search on `search_copy` is performed and its result discarded,
exactly as the source does. -/
def aspirationLoop : Nat → Nat → Search → Search → Score → Score → (Score × Score) →
    Option (Score × NodeKind × Search × Search)
  | 0, _, _, _, _, _, _ => Option.none
  | fuel + 1, depth, st, stc, alpha0, beta0, window => do
      let (alpha, beta) :=
        if depth ≠ 1 then (st.score.sub window.1, st.score.add window.2)
        else (alpha0, beta0)
      let (score, node_kind, st) ← negamax depth st alpha beta
      let (_, _, stc) ← negamax depth stc (Score.oppMate 0) (Score.ownMate 0)
      match node_kind with
      | .cut => aspirationLoop fuel depth st stc alpha0 beta0 (window.1, window.2.mul 4)
      | .all => aspirationLoop fuel depth st stc alpha0 beta0 (window.1.mul 4, window.2)
      | .pv => some (score, node_kind, st, stc)
      | .stopped => some (score, node_kind, st, stc)

/-- The iterative-deepening `while` loop of `Search::go`, one recursive
call per depth. -/
def goIter (max_depth : Nat) : Nat → Nat → Search → Search → Option (Search × Search)
  | 0, _, st, stc => some (st, stc)
  | fuel + 1, depth, st, stc =>
      if st.stopper ≠ Status.stopping ∧ depth ≤ max_depth then do
        let st := { st with depth := depth }
        let (score, _, st, stc) ← aspirationLoop 64 depth st stc
          (Score.oppMate 0) (Score.ownMate 0) (Score.score 50, Score.score 50)
        let st := { st with score := score }
        goIter max_depth fuel (depth + 1) st stc
      else some (st, stc)

/-- `Search::go` of src/search.rs lines 303-395 for the cases the claims
exercise: no time control (so no timer thread is spawned), a search
control carrying an optional depth limit, and a stop flag that holds a
fixed `Status` value throughout.  `search_copy` receives its own fresh
state, is searched once per aspiration iteration for the debug print, and
is discarded. -/
def Search.go (board : Board) (depthLimit : Option Nat) (stopper : Status) : Option Search := do
  let max_depth := depthLimit.getD 255
  let stc := Search.new stopper board
  let st := Search.new stopper board
  let (st, _) ← goIter max_depth (max_depth + 1) 1 st stc
  some st

/-! ### Concrete positions used by the claims -/

/-- A concrete Zobrist table (the identity indexing) used wherever a claim
is settled at a concrete position; the table's values are irrelevant to
move generation and clock updates. -/
def zvId : Nat → Nat := fun i => i

/-- The standard starting position, obtained through `load_position`. -/
def startposB : Board :=
  ((Board.fresh zvId).load_position Option.none []).getD (Board.fresh zvId)

def fenCastle : String := "r3k2r/8/8/8/8/8/8/R3K2R w KQkq - 5 10"

/-- A castling-ready position with half-move clock 5. -/
def castleB : Board :=
  ((Board.fresh zvId).load_position (some fenCastle) []).getD (Board.fresh zvId)

/-- The quiet pawn push e2e3, annotated by the board exactly as
`load_position` would annotate the UCI move. -/
def mvE2E3 : Move := startposB.annotate_move (Move.new 12 20 0) PieceKind.none

/-- The king-side castle e1g1, annotated by the board. -/
def mvE1G1 : Move := castleB.annotate_move (Move.new 4 6 0) PieceKind.none

/-- The move list generated for a board (empty when generation panics). -/
def movesOf (b : Board) : List Move :=
  ((Board.generate_moves b).map (fun r => r.1.moves)).getD []

def fen5 : String := "8/8/8/K1Pp3r/8/8/8/4k3 w - d6 0 1"

/-- The en-passant pin position of claim C5 (white king a5 = 32, white
pawn c5 = 34, black pawn d5 = 35, black rook h5 = 39, black king e1 = 4,
en-passant target d6 = 43). -/
def board5 : Board :=
  ((Board.fresh zvId).load_position (some fen5) []).getD (Board.fresh zvId)

def fen4 : String := "k3r3/8/8/8/4K3/8/8/8 w - - 0 1"

/-- The x-ray position of claim C4: white king e4 = 28, black rook e8 = 60
checking it along the e-file, black king a8 = 56.  The square directly
beyond the king on the checking ray is e3 = 20. -/
def board4 : Board :=
  ((Board.fresh zvId).load_position (some fen4) []).getD (Board.fresh zvId)

/-- The opponent attack set the generator computes for a board. -/
def attacksOf (b : Board) : Option Bitboard :=
  (MoveGenerator.get_attacks
    { board := b, attacks := 0, checkers := 0, block_ray := 0, pinned := 0 }).map
    (fun mg => mg.attacks)

/-- Modelled from the spec: the opponent attack set as section 4.3
describes it, "computed with the own king removed from the occupancy so
that a sliding piece's X-ray through the king is recorded".  It differs
from `MoveGenerator.get_attacks` only in the occupancy passed to the
sliding attacks. -/
def specAttacksKingRemoved (b : Board) : Option Bitboard := do
  let own ← b.own_pieces
  let opponent ← b.opponent_pieces
  let occupied := (own ||| opponent) ^^^ (own &&& b.kings)
  let pawnAttack ←
    match b.turn with
    | .white => some black_pawn_attacks
    | .black => some white_pawn_attacks
    | .none => Option.none
  let a := attackLoop pawnAttack 64 (b.pawns &&& opponent) 0
  let a := attackLoop (fun s => rook_attacks s occupied) 64 (b.rooks &&& opponent) a
  let a := attackLoop knight_attacks 64 (b.knights &&& opponent) a
  let a := attackLoop (fun s => bishop_attacks s occupied) 64 (b.bishops &&& opponent) a
  let a := attackLoop (fun s => queen_attacks s occupied) 64 (b.queens &&& opponent) a
  some (attackLoop king_attacks 64 (b.kings &&& opponent) a)

/-! ## Lemmas about the 16-bit two's-complement layer -/

theorem i16ofPat_lt {n : Nat} (h : n < 32768) : i16ofPat n = (n : Int) := by
  unfold i16ofPat
  rw [Nat.mod_eq_of_lt (by omega)]
  simp [h]

theorem i16ofPat_ge {n : Nat} (h1 : 32768 ≤ n) (h2 : n < 65536) :
    i16ofPat n = (n : Int) - 65536 := by
  unfold i16ofPat
  rw [Nat.mod_eq_of_lt (by omega)]
  simp [Nat.not_lt.mpr h1]

theorem i16pat_coe {x : Nat} (h : x < 65536) : i16pat (x : Int) = x := by
  unfold i16pat
  omega

theorem i16pat_i16ofPat {n : Nat} (h : n < 65536) : i16pat (i16ofPat n) = n := by
  unfold i16pat i16ofPat
  split <;> omega

theorem nat_and_63 (x : Nat) : x &&& 63 = x % 64 := by
  have h := Nat.and_pow_two_sub_one_eq_mod x 6
  norm_num at h
  exact h

/-- The 16-bit pattern packed by `Move::new` for in-range arguments. -/
theorem moveNew_val (f t fl : Nat) (hf : f < 64) (ht : t < 64) (hfl : fl < 16) :
    Move.new (f : Int) (t : Int) (fl : Int) = ⟨i16ofPat (4096 * fl + (64 * t + f))⟩ := by
  have e1 : i16shl (t : Int) 6 = ((64 * t : Nat) : Int) := by
    unfold i16shl
    rw [i16pat_coe (by omega)]
    have h : t <<< 6 = 64 * t := by rw [Nat.shiftLeft_eq]; ring
    rw [h, Nat.mod_eq_of_lt (by omega), i16ofPat_lt (by omega)]
  have e2 : i16or (f : Int) ((64 * t : Nat) : Int) = ((64 * t + f : Nat) : Int) := by
    unfold i16or
    rw [i16pat_coe (by omega), i16pat_coe (by omega)]
    have hor : f ||| 64 * t = 64 * t + f := by
      have h := Nat.mul_add_lt_is_or (i := 6) (b := f) (by omega) t
      norm_num at h
      rw [Nat.lor_comm]
      omega
    rw [hor, i16ofPat_lt (by omega)]
  have e3 : i16shl (fl : Int) 12 = i16ofPat (4096 * fl) := by
    unfold i16shl
    rw [i16pat_coe (by omega)]
    have h : fl <<< 12 = 4096 * fl := by rw [Nat.shiftLeft_eq]; ring
    rw [h, Nat.mod_eq_of_lt (by omega)]
  unfold Move.new
  rw [e1, e2, e3]
  unfold i16or
  rw [i16pat_coe (by omega), i16pat_i16ofPat (by omega)]
  have hor : (64 * t + f) ||| 4096 * fl = 4096 * fl + (64 * t + f) := by
    have h := Nat.mul_add_lt_is_or (i := 12) (b := 64 * t + f) (by omega) fl
    norm_num at h
    rw [Nat.lor_comm]
    omega
  rw [hor]

/-! ## Claim C9: move encoding round-trip -/

/-- C9 counterexample: `Move::new(12, 28, 8)` (a rook-promotion flag, high
bit set) decodes its from and to squares correctly but `flags()` returns
`-8`, not `8`: the arithmetic right shift of the packed `i16` sign-extends
and no mask is applied, so the claimed `flags() = flags` fails. -/
theorem c9_counterexample :
    (Move.new 12 28 8).fromSq = 12 ∧ (Move.new 12 28 8).toSq = 28 ∧
    (Move.new 12 28 8).flags = -8 ∧ (Move.new 12 28 8).flags ≠ 8 := by decide

/-- C9 amended: for every from and to square in `0..64` and flags value in
`0..16`, `Move::new(from, to, flags)` decodes `from()` and `to()` back
exactly; `flags()` decodes back to `flags` when `flags < 8`, and to
`flags - 16` (the sign-extended 4-bit pattern) when the promotion bit is
set. -/
theorem c9_amended (f t fl : Nat) (hf : f < 64) (ht : t < 64) (hfl : fl < 16) :
    (Move.new (f : Int) (t : Int) (fl : Int)).fromSq = f ∧
    (Move.new (f : Int) (t : Int) (fl : Int)).toSq = t ∧
    (Move.new (f : Int) (t : Int) (fl : Int)).flags =
      (if fl < 8 then (fl : Int) else (fl : Int) - 16) := by
  rw [moveNew_val f t fl hf ht hfl]
  set p := 4096 * fl + (64 * t + f) with hp
  have hplt : p < 65536 := by omega
  have hpat : i16pat (i16ofPat p) = p := i16pat_i16ofPat hplt
  refine ⟨?_, ?_, ?_⟩
  · show i16and (i16ofPat p) 63 = f
    unfold i16and
    rw [hpat]
    have h63 : i16pat 63 = 63 := by decide
    rw [h63, nat_and_63, i16ofPat_lt (by omega)]
    have h : p % 64 = f := by omega
    rw [h]
  · show i16and (i16shr (i16ofPat p) 6) 63 = t
    unfold i16and i16shr
    rw [hpat]
    have h63 : i16pat 63 = 63 := by decide
    rw [h63]
    rcases Nat.lt_or_ge p 32768 with hc | hc
    · rw [i16ofPat_lt hc, Int.fdiv_eq_ediv _ (by norm_num)]
      have hdiv : ((p : Int)) / ((2 : Int) ^ 6) = ((p / 64 : Nat) : Int) := by
        push_cast
        omega
      rw [hdiv, i16pat_coe (by omega), nat_and_63, i16ofPat_lt (by omega)]
      have h : p / 64 % 64 = t := by omega
      rw [h]
    · rw [i16ofPat_ge hc hplt, Int.fdiv_eq_ediv _ (by norm_num)]
      have hdiv : ((p : Int) - 65536) / ((2 : Int) ^ 6) = ((p / 64 : Nat) : Int) - 1024 := by
        push_cast
        omega
      rw [hdiv]
      have hpat2 : i16pat (((p / 64 : Nat) : Int) - 1024) = p / 64 + 64512 := by
        unfold i16pat
        omega
      rw [hpat2, nat_and_63, i16ofPat_lt (by omega)]
      have h : (p / 64 + 64512) % 64 = t := by omega
      rw [h]
  · show i16shr (i16ofPat p) 12 = _
    unfold i16shr
    rw [hpat]
    rcases Nat.lt_or_ge p 32768 with hc | hc
    · rw [i16ofPat_lt hc, Int.fdiv_eq_ediv _ (by norm_num)]
      have h8 : fl < 8 := by omega
      simp only [h8, if_pos]
      push_cast
      omega
    · rw [i16ofPat_ge hc hplt, Int.fdiv_eq_ediv _ (by norm_num)]
      have h8 : ¬ fl < 8 := by omega
      simp only [h8, if_neg, if_false]
      push_cast
      omega

/-- Witness for C9 amended at the concrete input (12, 28, 9). -/
theorem c9_amended_witness :
    (12 : Nat) < 64 ∧ (28 : Nat) < 64 ∧ (9 : Nat) < 16 ∧
    ((Move.new ((12 : Nat) : Int) ((28 : Nat) : Int) ((9 : Nat) : Int)).fromSq = (12 : Nat) ∧
     (Move.new ((12 : Nat) : Int) ((28 : Nat) : Int) ((9 : Nat) : Int)).toSq = (28 : Nat) ∧
     (Move.new ((12 : Nat) : Int) ((28 : Nat) : Int) ((9 : Nat) : Int)).flags =
       (if (9 : Nat) < 8 then ((9 : Nat) : Int) else ((9 : Nat) : Int) - 16)) :=
  ⟨by decide, by decide, by decide, c9_amended 12 28 9 (by decide) (by decide) (by decide)⟩

/-! ## Claim C8: the Score comparison -/

/-- C8 counterexample: `Stop` does not compare equal to itself; the first
match arm of `partial_cmp` makes `cmp(Stop, Stop) = Less`, so the claimed
reflexivity "every score compares equal to itself (including Stop)"
fails. -/
theorem c8_counterexample :
    Score.cmp Score.stop Score.stop = Ordering.lt ∧
    Score.cmp Score.stop Score.stop ≠ Ordering.eq := by decide

/-- C8 amended: restricted to scores other than `Stop`, the comparison is a
total preorder (reflexive, with `lt`/`gt` mirror-consistent and transitive)
satisfying the stated relations: `OwnMate(k)` above every centipawn score,
every centipawn score above `OppMate(k)`, smaller ply better within
`OwnMate`, larger ply better within `OppMate`, and `Draw` comparing equal
to a centipawn score of 0.  `Stop` compares `Less` to everything --
including itself, so it is not reflexive. -/
theorem c8_amended : ∀ (a b c : Score) (k k' p : Nat) (x : Int),
    a ≠ Score.stop → b ≠ Score.stop → c ≠ Score.stop →
    (a.cmp a = .eq) ∧
    (a.cmp b = .lt ↔ b.cmp a = .gt) ∧
    (a.cmp b = .eq ↔ b.cmp a = .eq) ∧
    (a.cmp b ≠ .gt → b.cmp c ≠ .gt → a.cmp c ≠ .gt) ∧
    ((Score.ownMate k).cmp (Score.score x) = .gt) ∧
    ((Score.score x).cmp (Score.oppMate k) = .gt) ∧
    (k < k' → (Score.ownMate k).cmp (Score.ownMate k') = .gt) ∧
    (k < k' → (Score.oppMate k).cmp (Score.oppMate k') = .lt) ∧
    ((Score.draw p).cmp (Score.score 0) = .eq) ∧
    ((Score.score 0).cmp (Score.draw p) = .eq) ∧
    (Score.cmp Score.stop a = .lt) ∧ (a.cmp Score.stop = .gt) ∧
    (Score.cmp Score.stop Score.stop = .lt) := by
  intro a b c k k' p x ha hb hc
  rcases a with k1 | k1 | x1 | p1 | _ <;> rcases b with k2 | k2 | x2 | p2 | _ <;>
    rcases c with k3 | k3 | x3 | p3 | _ <;>
    simp_all [Score.cmp, compare_lt_iff_lt, compare_gt_iff_gt, compare_eq_iff_eq] <;>
    omega

/-- Witness for C8 amended at concrete scores. -/
theorem c8_amended_witness :
    Score.score 1 ≠ Score.stop ∧ Score.draw 0 ≠ Score.stop ∧ Score.oppMate 2 ≠ Score.stop ∧
    (((Score.score 1).cmp (Score.score 1) = .eq) ∧
     ((Score.score 1).cmp (Score.draw 0) = .lt ↔ (Score.draw 0).cmp (Score.score 1) = .gt) ∧
     ((Score.score 1).cmp (Score.draw 0) = .eq ↔ (Score.draw 0).cmp (Score.score 1) = .eq) ∧
     ((Score.score 1).cmp (Score.draw 0) ≠ .gt → (Score.draw 0).cmp (Score.oppMate 2) ≠ .gt →
       (Score.score 1).cmp (Score.oppMate 2) ≠ .gt) ∧
     ((Score.ownMate 0).cmp (Score.score (-5)) = .gt) ∧
     ((Score.score (-5)).cmp (Score.oppMate 0) = .gt) ∧
     (0 < 1 → (Score.ownMate 0).cmp (Score.ownMate 1) = .gt) ∧
     (0 < 1 → (Score.oppMate 0).cmp (Score.oppMate 1) = .lt) ∧
     ((Score.draw 3).cmp (Score.score 0) = .eq) ∧
     ((Score.score 0).cmp (Score.draw 3) = .eq) ∧
     (Score.cmp Score.stop (Score.score 1) = .lt) ∧
     ((Score.score 1).cmp Score.stop = .gt) ∧
     (Score.cmp Score.stop Score.stop = .lt)) :=
  ⟨by decide, by decide, by decide,
   c8_amended (Score.score 1) (Score.draw 0) (Score.oppMate 2) 0 1 3 (-5)
     (by decide) (by decide) (by decide)⟩

/-! ## Claim C3: the half-move and full-move clocks -/

/-- C3: the code contradicts the specified clock rule.  On the starting
position the annotated quiet pawn push e2e3 (a legal generated move, from
square 12 holding a pawn, flags 0) leaves `make_move` setting the
half-move clock to 1 -- the spec requires 0 for a pawn move.  On a
castling position with half-move clock 5, the annotated legal castle e1g1
sets the clock to 0 -- the spec requires 6.  The cause is the
`is_quiet()` test (`flags == 0`), which treats quiet pawn pushes as
ordinary quiet moves and castles as non-quiet. -/
theorem c3_half_move_clock_code_bug :
    startposB.half_move_clock = 0 ∧
    (startposB.get_piece 12).kind = PieceKind.pawn ∧
    mvE2E3.is_quiet = true ∧
    (Board.generate_moves startposB).isSome = true ∧
    mvE2E3 ∈ movesOf startposB ∧
    (startposB.make_move mvE2E3).map Board.half_move_clock = some 1 ∧
    castleB.half_move_clock = 5 ∧
    mvE1G1.is_castle = true ∧
    (Board.generate_moves castleB).isSome = true ∧
    mvE1G1 ∈ movesOf castleB ∧
    (castleB.make_move mvE1G1).map Board.half_move_clock = some 0 := by decide

/-! ## Claim C5: the en-passant pin position -/

/-- C5: in the position `8/8/8/K1Pp3r/8/8/8/4k3 w - d6 0 1` the generated
move list contains no move from c5 (square 34) to d6 (square 43): the
en-passant capture is rejected because the rank-attack test with both
pawns removed finds the rook on h5 attacking the king on a5. -/
theorem c5_en_passant_pin_not_generated :
    ((Board.fresh zvId).load_position (some fen5) []).isSome = true ∧
    (Board.generate_moves board5).isSome = true ∧
    ∀ m ∈ movesOf board5, ¬ (m.fromSq = 34 ∧ m.toSq = 43) := by decide

/-! ## Lemmas about bit scanning and the king checker loop -/

theorem bsfAux_spec : ∀ (fuel x i : Nat) (r : Int), bsfAux fuel x i = some r →
    ∃ l : Nat, r = ((i + l : Nat) : Int) ∧ x.testBit l = true ∧ ∀ j < l, x.testBit j = false := by
  intro fuel
  induction fuel with
  | zero => intro x i r h; simp [bsfAux] at h
  | succ fuel ih =>
      intro x i r h
      unfold bsfAux at h
      by_cases hx : x % 2 = 1
      · rw [if_pos hx] at h
        have hir : ((i : Nat) : Int) = r := Option.some.inj h
        refine ⟨0, ?_, ?_, ?_⟩
        · omega
        · simp [Nat.testBit_zero, hx]
        · intro j hj; omega
      · rw [if_neg hx] at h
        obtain ⟨l, hr, hb, hlow⟩ := ih (x / 2) (i + 1) r h
        refine ⟨l + 1, by push_cast at hr ⊢; omega, ?_, ?_⟩
        · rw [← Nat.testBit_div_two]; exact hb
        · intro j hj
          match j with
          | 0 => simp only [Nat.testBit_zero, decide_eq_false_iff_not]; omega
          | j + 1 =>
              rw [Nat.testBit_add_one]
              exact hlow j (by omega)

theorem bsfAux_isSome : ∀ (fuel x i : Nat), x ≠ 0 → x < 2 ^ fuel →
    (bsfAux fuel x i).isSome = true := by
  intro fuel
  induction fuel with
  | zero => intro x i h0 hlt; norm_num at hlt; omega
  | succ fuel ih =>
      intro x i h0 hlt
      unfold bsfAux
      by_cases hx : x % 2 = 1
      · rw [if_pos hx]; rfl
      · rw [if_neg hx]
        have hp : (2 : Nat) ^ (fuel + 1) = 2 * 2 ^ fuel := by rw [Nat.pow_succ]; ring
        exact ih (x / 2) (i + 1) (by omega) (by omega)

theorem pop_lsb_spec {x : Nat} {r : Int} {x' : Nat} (hx : x < 2 ^ 64)
    (h : pop_lsb x = some (r, x')) :
    ∃ l : Nat, l < 64 ∧ r = (l : Int) ∧ x.testBit l = true ∧
      (∀ j < l, x.testBit j = false) ∧ x' = x ^^^ (1 <<< l) := by
  unfold pop_lsb at h
  cases hbs : bitscan_forward x with
  | none => rw [hbs] at h; exact absurd h (by simp)
  | some r0 =>
      rw [hbs] at h
      obtain ⟨l, hr0, hb, hlow⟩ := bsfAux_spec 64 x 0 r0 hbs
      simp only [Option.some.injEq, Prod.mk.injEq] at h
      obtain ⟨hr, hx'⟩ := h
      have hge := Nat.testBit_implies_ge hb
      have hl64 : l < 64 := by
        by_contra hcon
        push_neg at hcon
        have h64 : (2 : Nat) ^ 64 ≤ 2 ^ l := Nat.pow_le_pow_right (by norm_num) hcon
        omega
      have hr0l : r0 = (l : Int) := by rw [hr0]; norm_num
      refine ⟨l, hl64, ?_, hb, hlow, ?_⟩
      · rw [← hr]; exact hr0l
      · rw [← hx', hr0l]
        have hsq : sqBit (l : Int) = 1 <<< l := by
          unfold sqBit
          rw [if_pos (by constructor <;> omega)]
          norm_num
        rw [hsq]

theorem pop_lsb_none {x : Nat} (hx : x < 2 ^ 64) (h : pop_lsb x = Option.none) : x = 0 := by
  by_contra h0
  unfold pop_lsb at h
  have hs := bsfAux_isSome 64 x 0 h0 hx
  cases hbs : bitscan_forward x with
  | none => unfold bitscan_forward at hbs; rw [hbs] at hs; simp at hs
  | some r0 => rw [hbs] at h; simp at h

theorem and_eq_zero_of_testBit {a b : Nat} (h : ∀ j, a.testBit j = false ∨ b.testBit j = false) :
    a &&& b = 0 := by
  apply Nat.eq_of_testBit_eq
  intro j
  simp only [Nat.testBit_and, Nat.zero_testBit]
  rcases h j with h' | h' <;> simp [h']

theorem and_compl_sqBit (bb : Nat) (s : Int) :
    (bb &&& compl64 (sqBit s)) &&& sqBit s = 0 := by
  apply and_eq_zero_of_testBit
  intro j
  unfold sqBit compl64 U64MASK
  by_cases hs : 0 ≤ s ∧ s < 64
  · obtain ⟨hs1, hs2⟩ := hs
    rw [if_pos ⟨hs1, hs2⟩]
    by_cases hj : j = s.toNat
    · left
      have h1 : Nat.testBit (2 ^ 64 - 1) j = true := by
        rw [Nat.testBit_two_pow_sub_one]
        simp only [decide_eq_true_eq]
        omega
      have h2 : Nat.testBit (1 <<< s.toNat) j = true := by
        rw [Nat.shiftLeft_eq, Nat.one_mul, Nat.testBit_two_pow]
        simp [hj]
      simp only [Nat.testBit_and, Nat.testBit_xor, h1, h2]
      simp
    · right
      rw [Nat.shiftLeft_eq, Nat.one_mul, Nat.testBit_two_pow]
      simp [Ne.symm hj]
  · rw [if_neg hs]
    right
    exact Nat.zero_testBit j

theorem and_zero_mono {a m x : Nat} (h : a &&& x = 0) : (a &&& m) &&& x = 0 := by
  rw [Nat.and_assoc, Nat.and_comm m x, ← Nat.and_assoc, h, Nat.zero_and]

theorem kingCheckerLoop_mono (board : Board) (fromSq : Square) :
    ∀ (fuel : Nat) (ck bb x : Bitboard), bb &&& x = 0 →
      (kingCheckerLoop board fromSq fuel ck bb).1 &&& x = 0 := by
  intro fuel
  induction fuel with
  | zero => intro ck bb x h; exact h
  | succ fuel ih =>
      intro ck bb x h
      unfold kingCheckerLoop
      cases hp : pop_lsb ck with
      | none => exact h
      | some rc =>
          obtain ⟨c0, ck'⟩ := rc
          simp only
          split
          · split
            · exact ih ck' _ x (and_zero_mono h)
            · exact ih ck' _ x h
          · exact ih ck' _ x h

theorem mod_two_pow_eq_zero_iff {x k : Nat} :
    x % 2 ^ k = 0 ↔ ∀ j < k, x.testBit j = false := by
  constructor
  · intro h j hj
    have ht := Nat.testBit_mod_two_pow x k j
    rw [h, Nat.zero_testBit] at ht
    simp [hj] at ht
    exact ht
  · intro h
    apply Nat.eq_of_testBit_eq
    intro j
    rw [Nat.testBit_mod_two_pow, Nat.zero_testBit]
    by_cases hj : j < k
    · simp [hj, h j hj]
    · simp [hj]

theorem kingCheckerLoop_excludes (board : Board) (fromSq : Int) :
    ∀ (fuel ck bb c : Nat) (dir : Dir),
    ck < 2 ^ 64 → ck % 2 ^ (64 - fuel) = 0 →
    ck.testBit c = true →
    sqBit (c : Int) &&& board.pawns = 0 →
    Dir.from_squares (c : Int) fromSq = some dir →
    (kingCheckerLoop board fromSq fuel ck bb).1 &&& sqBit (fromSq + dir.to_square) = 0 := by
  intro fuel
  induction fuel with
  | zero =>
      intro ck bb c dir hlt hmod hbit hpawn hdir
      exfalso
      norm_num at hmod
      have hck : ck = 0 := by omega
      rw [hck, Nat.zero_testBit] at hbit
      exact Bool.false_ne_true hbit
  | succ fuel ih =>
      intro ck bb c dir hlt hmod hbit hpawn hdir
      unfold kingCheckerLoop
      cases hp : pop_lsb ck with
      | none =>
          exfalso
          have h0 := pop_lsb_none hlt hp
          rw [h0, Nat.zero_testBit] at hbit
          exact Bool.false_ne_true hbit
      | some rc =>
          obtain ⟨c0, ck'⟩ := rc
          obtain ⟨l, hl64, hc0, hbl, hlow, hck'⟩ := pop_lsb_spec hlt hp
          have hlge : 64 - (fuel + 1) ≤ l := by
            by_contra hcon
            push_neg at hcon
            have := mod_two_pow_eq_zero_iff.mp hmod l hcon
            rw [this] at hbl
            exact Bool.false_ne_true hbl
          by_cases hcl : c = l
          · subst hcl
            rw [hc0] at hp ⊢
            simp only
            rw [if_pos hpawn, hdir]
            exact kingCheckerLoop_mono board fromSq fuel ck' _ _ (and_compl_sqBit bb _)
          · have hclt : l < c := by
              rcases Nat.lt_or_ge c l with h | h
              · rw [hlow c h] at hbit; exact absurd hbit (by simp)
              · omega
            have hbit' : ck'.testBit c = true := by
              rw [hck', Nat.testBit_xor, hbit, Nat.shiftLeft_eq, Nat.one_mul,
                Nat.testBit_two_pow]
              simp
              omega
            have hlt' : ck' < 2 ^ 64 := by
              apply Nat.lt_pow_two_of_testBit
              intro j hj
              rw [hck', Nat.testBit_xor, Nat.shiftLeft_eq, Nat.one_mul, Nat.testBit_two_pow]
              have h1 : ck.testBit j = false := Nat.testBit_lt_two_pow
                (lt_of_lt_of_le hlt (Nat.pow_le_pow_right (by norm_num) hj))
              have h2 : decide (l = j) = false := by simp; omega
              rw [h1, h2]
              rfl
            have hmod' : ck' % 2 ^ (64 - fuel) = 0 := by
              apply mod_two_pow_eq_zero_iff.mpr
              intro j hj
              have hjl : j ≤ l := by omega
              rw [hck', Nat.testBit_xor, Nat.shiftLeft_eq, Nat.one_mul, Nat.testBit_two_pow]
              rcases Nat.lt_or_ge j l with h | h
              · rw [hlow j h]
                have : decide (l = j) = false := by simp; omega
                rw [this]
                rfl
              · have hjeq : j = l := by omega
                subst hjeq
                rw [hbl]
                simp
            simp only
            split
            · split
              · exact ih ck' _ c dir hlt' hmod' hbit' hpawn hdir
              · exact ih ck' _ c dir hlt' hmod' hbit' hpawn hdir
            · exact ih ck' _ c dir hlt' hmod' hbit' hpawn hdir

/-! ## Claim C4: the opponent attack set and the x-ray through the king -/

/-- C4 counterexample: in position `k3r3/8/8/8/4K3/8/8/8 w - -` the black
rook on e8 (60) attacks the white king on e4 (28) along the south ray and
the square directly beyond the king is e3 (20); the attack set computed by
`get_attacks` does not contain e3 because the occupancy it passes to the
sliding attacks still contains the own king, while the spec's king-removed
computation does contain e3.  The claimed mechanism (king removed, beyond
square in the attack set) is therefore false of the code. -/
theorem c4_counterexample :
    ((Board.fresh zvId).load_position (some fen4) []).isSome = true ∧
    (rook_attacks 60 (board4.white_pieces ||| board4.black_pieces)).testBit 28 = true ∧
    Dir.from_squares 60 28 = some Dir.south ∧
    (28 : Int) + Dir.south.to_square = 20 ∧
    (attacksOf board4).map (fun a => a.testBit 20) = some false ∧
    (specAttacksKingRemoved board4).map (fun a => a.testBit 20) = some true := by decide

/-- C4 amended: the opponent attack set is computed with the own king
included in the occupancy, so the square beyond the king on a checking ray
is not in the attack set (at the concrete position, e3 is absent from the
code's set and present in the spec-modelled king-removed set, and no king
move to e3 is generated); the king is nevertheless barred from that square
because for every board, every set bit of the checkers bitboard that is
not a pawn and is ray-aligned with the king leads the checker loop of
`generate_king_moves` to clear the square directly beyond the king from
the king's target bitboard. -/
theorem c4_amended :
    ((attacksOf board4).map (fun a => a.testBit 20) = some false ∧
     (specAttacksKingRemoved board4).map (fun a => a.testBit 20) = some true ∧
     ∀ m ∈ movesOf board4, ¬ (m.fromSq = 28 ∧ m.toSq = 20)) ∧
    ∀ (board : Board) (fromSq : Int) (ck bb c : Nat) (dir : Dir),
      ck < 2 ^ 64 → ck.testBit c = true →
      sqBit (c : Int) &&& board.pawns = 0 →
      Dir.from_squares (c : Int) fromSq = some dir →
      (kingCheckerLoop board fromSq 64 ck bb).1 &&& sqBit (fromSq + dir.to_square) = 0 := by
  constructor
  · exact ⟨by decide, by decide, by decide⟩
  · intro board fromSq ck bb c dir h1 h2 h3 h4
    exact kingCheckerLoop_excludes board fromSq 64 ck bb c dir h1 (by norm_num [Nat.mod_one]) h2 h3 h4

/-- Witness for C4 amended: the rook checker on e8 against the king square
e4 clears e3 from a concrete king bitboard. -/
theorem c4_amended_witness :
    (2 ^ 60 : Nat) < 2 ^ 64 ∧ (2 ^ 60 : Nat).testBit 60 = true ∧
    sqBit ((60 : Nat) : Int) &&& board4.pawns = 0 ∧
    Dir.from_squares ((60 : Nat) : Int) 28 = some Dir.south ∧
    (kingCheckerLoop board4 28 64 (2 ^ 60) (king_attacks 28)).1 &&&
      sqBit (28 + Dir.south.to_square) = 0 :=
  ⟨by decide, by decide, by decide, by decide,
   c4_amended.2 board4 28 (2 ^ 60) (king_attacks 28) 60 Dir.south
     (by decide) (by decide) (by decide) (by decide)⟩

end PerftMaster

namespace PerftMaster
theorem specZobrist_hash_irrel (b : Board) (h : Nat) :
    specZobrist { b with zobrist_hash := h } = specZobrist b := rfl

theorem zobristPieceStep_char (b : Board) (sq : Nat) :
    zobristPieceStep b sq =
      { b with zobrist_hash := b.zobrist_hash ^^^ zobristPieceVal b sq } := by
  by_cases h : (b.get_piece (sq : Int)).kind ≠ PieceKind.none
  · simp [zobristPieceStep, zobristPieceVal, h]
  · simp [zobristPieceStep, zobristPieceVal, h]

theorem calc_fold (l : List Nat) : ∀ (b : Board),
    l.foldl zobristPieceStep b =
      { b with zobrist_hash := l.foldl (fun h sq => h ^^^ zobristPieceVal b sq) b.zobrist_hash } := by
  induction l with
  | nil => intro b; rfl
  | cons a l ih =>
      intro b
      rw [List.foldl_cons, List.foldl_cons, zobristPieceStep_char, ih]
      rfl

theorem xorFold (f : Nat → Nat) (l : List Nat) : ∀ h : Nat,
    l.foldl (fun h sq => h ^^^ f sq) h = h ^^^ l.foldl (fun h sq => h ^^^ f sq) 0 := by
  induction l with
  | nil => intro h; rw [List.foldl_nil, List.foldl_nil, Nat.xor_zero]
  | cons a l ih =>
      intro h
      rw [List.foldl_cons, List.foldl_cons, ih (h ^^^ f a), ih (0 ^^^ f a),
        Nat.zero_xor, Nat.xor_assoc]

theorem calculate_zobrist_spec (b : Board) :
    b.calculate_zobrist = { b with zobrist_hash := b.zobrist_hash ^^^ specZobrist b } := by
  unfold Board.calculate_zobrist specZobrist
  rw [calc_fold]
  by_cases h1 : b.turn = Color.black <;>
    by_cases h2 : 0 < b.castling_rights &&& 8 <;>
    by_cases h3 : 0 < b.castling_rights &&& 4 <;>
    by_cases h4 : 0 < b.castling_rights &&& 2 <;>
    by_cases h5 : 0 < b.castling_rights % 2 <;>
    by_cases h6 : b.ep ≠ -1 <;>
    simp [h1, h2, h3, h4, h5, h6, Nat.and_one_is_mod, Nat.xor_assoc] <;>
    rw [xorFold] <;> simp [Nat.xor_assoc]

theorem loadFenStep_frame (st : Board × Square) (c : Char) :
    (loadFenStep st c).1.zobrist_hash = st.1.zobrist_hash ∧
    (loadFenStep st c).1.zobrist_values = st.1.zobrist_values := by
  rcases st with ⟨b, pos⟩
  unfold loadFenStep
  dsimp only
  repeat' split
  all_goals exact ⟨rfl, rfl⟩

theorem loadFenFold_frame (l : List Char) : ∀ st : Board × Square,
    (l.foldl loadFenStep st).1.zobrist_hash = st.1.zobrist_hash ∧
    (l.foldl loadFenStep st).1.zobrist_values = st.1.zobrist_values := by
  induction l with
  | nil => intro st; exact ⟨rfl, rfl⟩
  | cons a l ih =>
      intro st
      rw [List.foldl_cons]
      exact ⟨(ih _).1.trans (loadFenStep_frame st a).1,
             (ih _).2.trans (loadFenStep_frame st a).2⟩

theorem castlingStep_frame (b : Board) (c : Char) :
    (castlingStep b c).zobrist_hash = b.zobrist_hash ∧
    (castlingStep b c).zobrist_values = b.zobrist_values := by
  unfold castlingStep
  repeat' split
  all_goals exact ⟨rfl, rfl⟩

theorem castlingFold_frame (l : List Char) : ∀ b : Board,
    (l.foldl castlingStep b).zobrist_hash = b.zobrist_hash ∧
    (l.foldl castlingStep b).zobrist_values = b.zobrist_values := by
  induction l with
  | nil => intro b; exact ⟨rfl, rfl⟩
  | cons a l ih =>
      intro b
      rw [List.foldl_cons]
      exact ⟨(ih _).1.trans (castlingStep_frame b a).1,
             (ih _).2.trans (castlingStep_frame b a).2⟩

theorem bindSome {α β : Type} (x : Option α) (f : α → Option β) (r : β)
    (h : x >>= f = some r) : ∃ a, x = some a ∧ f a = some r := by
  cases x with
  | none => cases h
  | some a => exact ⟨a, rfl, h⟩

theorem load_fen_frame (b : Board) (fen : String) (b' : Board)
    (h : b.load_fen fen = some b') :
    b'.zobrist_hash = b.zobrist_hash ∧ b'.zobrist_values = b.zobrist_values := by
  unfold Board.load_fen at h
  obtain ⟨pieces, -, h⟩ := bindSome _ _ _ h
  obtain ⟨turnStr, -, h⟩ := bindSome _ _ _ h
  obtain ⟨castling, -, h⟩ := bindSome _ _ _ h
  obtain ⟨en_passant, -, h⟩ := bindSome _ _ _ h
  obtain ⟨halfmove, -, h⟩ := bindSome _ _ _ h
  obtain ⟨fullmove, -, h⟩ := bindSome _ _ _ h
  have hfold := loadFenFold_frame pieces (b, (56 : Square))
  repeat' split at h
  all_goals
    first
      | (obtain ⟨a, ha, -⟩ := bindSome _ _ _ h; exact Option.noConfusion ha)
      | skip
  all_goals
    obtain ⟨a1, ha1, h⟩ := bindSome _ _ _ h
  all_goals
    obtain rfl : _ = a1 := Option.some.inj ha1
  all_goals
    obtain ⟨a2, ha2, h⟩ := bindSome _ _ _ h
  all_goals
    first
      | (obtain rfl : _ = a2 := Option.some.inj ha2)
      | clear ha2
  all_goals
    obtain ⟨a3, ha3, h⟩ := bindSome _ _ _ h
  all_goals
    first
      | (obtain rfl : _ = a3 := Option.some.inj ha3)
      | clear ha3
  all_goals
    obtain ⟨a4, ha4, h⟩ := bindSome _ _ _ h
  all_goals
    first
      | (obtain rfl : _ = a4 := Option.some.inj ha4)
      | clear ha4
  all_goals
    first
      | (obtain ⟨a5, ha5, h⟩ := bindSome _ _ _ h;
         first
           | (obtain rfl : _ = a5 := Option.some.inj ha5)
           | clear ha5)
      | skip
  all_goals
    obtain rfl : _ = b' := Option.some.inj h
  all_goals
    exact ⟨(castlingFold_frame castling _).1.trans hfold.1,
           (castlingFold_frame castling _).2.trans hfold.2⟩
/-- C2 counterexample: loading the start position and then playing e2e4
through `load_position` leaves `zobrist_hash` equal to 0, while the
from-scratch Zobrist value of the resulting position is 25 (with the
identity table): the final `calculate_zobrist` XORs the fresh components
into the hash already accumulated incrementally by `make_move`, so the two
cancel instead of agreeing. -/
theorem c2_counterexample :
    ((Board.fresh zvId).load_position Option.none [⟨12, 28, PieceKind.none⟩]).map
        (fun b => (b.zobrist_hash, specZobrist b)) = some (0, 25) ∧ (0 : Nat) ≠ 25 := by
  refine ⟨by decide, by decide⟩

/-- C2 amended: when `load_position` is called with an empty move list on a
board whose `zobrist_hash` is zero (as on the engine's freshly constructed
board), the resulting `zobrist_hash` equals the from-scratch Zobrist value
implied by the resulting fields: the XOR of the per-piece, side-to-move,
castling-rights and en-passant-file components of the final position. -/
theorem c2_amended (b : Board) (fen : Option String) (b' : Board)
    (h0 : b.zobrist_hash = 0) (h : b.load_position fen [] = some b') :
    b'.zobrist_hash = specZobrist b' := by
  unfold Board.load_position at h
  cases fen with
  | none =>
      obtain ⟨b1, hb1, h⟩ := bindSome _ _ _ h
      obtain rfl : _ = b1 := Option.some.inj hb1
      obtain rfl : _ = b' := Option.some.inj h
      rw [calculate_zobrist_spec]
      show b.zobrist_hash ^^^ specZobrist b.clean_board.load_startpos =
        specZobrist b.clean_board.load_startpos
      rw [h0, Nat.zero_xor]
  | some f =>
      obtain ⟨b1, hb1, h⟩ := bindSome _ _ _ h
      obtain rfl : _ = b' := Option.some.inj h
      have h1 : b1.zobrist_hash = 0 := (load_fen_frame b.clean_board f b1 hb1).1.trans h0
      rw [calculate_zobrist_spec]
      show b1.zobrist_hash ^^^ specZobrist b1 = specZobrist b1
      rw [h1, Nat.zero_xor]

/-- Witness for C2 amended: on a fresh board (hash 0) the start position is
loaded with no moves and the hash agrees with the from-scratch value. -/
theorem c2_amended_witness :
    (Board.fresh zvId).zobrist_hash = 0 ∧
    (Board.fresh zvId).load_position Option.none [] =
      some ((Board.fresh zvId).clean_board.load_startpos.calculate_zobrist) ∧
    ((Board.fresh zvId).clean_board.load_startpos.calculate_zobrist).zobrist_hash =
      specZobrist ((Board.fresh zvId).clean_board.load_startpos.calculate_zobrist) :=
  ⟨rfl, rfl, c2_amended (Board.fresh zvId) Option.none _ rfl rfl⟩

end PerftMaster

namespace PerftMaster

theorem get_attacks_board (mg mg' : MoveGenerator) (h : mg.get_attacks = some mg') :
    mg'.board = mg.board := by
  unfold MoveGenerator.get_attacks at h
  obtain ⟨own, -, h⟩ := bindSome _ _ _ h
  obtain ⟨opponent, -, h⟩ := bindSome _ _ _ h
  split at h
  all_goals
    obtain ⟨a, ha, h⟩ := bindSome _ _ _ h
  all_goals
    first
      | exact Option.noConfusion ha
      | (obtain rfl : _ = mg' := Option.some.inj h; rfl)

theorem get_checkers_board (mg mg' : MoveGenerator) (h : mg.get_checkers = some mg') :
    mg'.board = mg.board := by
  unfold MoveGenerator.get_checkers at h
  obtain ⟨own, -, h⟩ := bindSome _ _ _ h
  obtain ⟨opponent, -, h⟩ := bindSome _ _ _ h
  obtain ⟨p, -, h⟩ := bindSome _ _ _ h
  obtain ⟨fromSquare, rest⟩ := p
  repeat' split at h
  all_goals
    obtain ⟨a, ha, h⟩ := bindSome _ _ _ h
  all_goals
    first
      | exact Option.noConfusion ha
      | (obtain rfl : _ = mg' := Option.some.inj h; rfl)

theorem get_block_ray_board (mg mg' : MoveGenerator) (h : mg.get_block_ray = some mg') :
    mg'.board = mg.board := by
  unfold MoveGenerator.get_block_ray at h
  obtain ⟨own, -, h⟩ := bindSome _ _ _ h
  split at h
  · obtain ⟨kingSq, -, h⟩ := bindSome _ _ _ h
    obtain rfl : _ = mg' := Option.some.inj h
    rfl
  · obtain rfl : _ = mg' := Option.some.inj h
    rfl

theorem get_pinned_board (mg mg' : MoveGenerator) (h : mg.get_pinned = some mg') :
    mg'.board = mg.board := by
  unfold MoveGenerator.get_pinned at h
  obtain ⟨own, -, h⟩ := bindSome _ _ _ h
  obtain ⟨opponent, -, h⟩ := bindSome _ _ _ h
  obtain ⟨kingSq, -, h⟩ := bindSome _ _ _ h
  obtain ⟨rookXray, -, h⟩ := bindSome _ _ _ h
  obtain ⟨bishopXray, -, h⟩ := bindSome _ _ _ h
  obtain rfl : _ = mg' := Option.some.inj h
  rfl

theorem generate_king_moves_board (mg : MoveGenerator) (p : MoveGenerator × List Move)
    (h : mg.generate_king_moves = some p) : p.1.board = mg.board := by
  unfold MoveGenerator.generate_king_moves at h
  obtain ⟨own, -, h⟩ := bindSome _ _ _ h
  obtain ⟨opponent, -, h⟩ := bindSome _ _ _ h
  obtain ⟨q, -, h⟩ := bindSome _ _ _ h
  obtain ⟨fromSquare, rest⟩ := q
  repeat' split at h
  all_goals
    obtain ⟨ms, hms, h⟩ := bindSome _ _ _ h
  all_goals
    first
      | exact Option.noConfusion hms
      | (obtain rfl : _ = p := Option.some.inj h; rfl)

/-- C10: `generate_moves` has no side effect on the position: the board
returned through the mutable reference is field-for-field the board the
function was called on, for every board on which the generator succeeds. -/
theorem iteSome {α : Type} (c : Prop) [inst : Decidable c] (x y : Option α) (r : α)
    (h : (if c then x else y) = some r) :
    (c ∧ x = some r) ∨ (¬ c ∧ y = some r) := by
  by_cases hc : c
  · rw [if_pos hc] at h
    exact Or.inl ⟨hc, h⟩
  · rw [if_neg hc] at h
    exact Or.inr ⟨hc, h⟩

theorem c10_generate_moves_frame (b : Board) (r : MoveGeneratorResult) (b' : Board)
    (h : b.generate_moves = some (r, b')) : b' = b := by
  unfold Board.generate_moves MoveGenerator.generate_moves at h
  obtain ⟨mg1, h1, h⟩ := bindSome _ _ _ h
  obtain ⟨mg2, h2, h⟩ := bindSome _ _ _ h
  obtain ⟨mg3, h3, h⟩ := bindSome _ _ _ h
  obtain ⟨mg4, h4, h⟩ := bindSome _ _ _ h
  rcases iteSome _ _ _ _ h with ⟨-, h⟩ | ⟨-, h⟩
  · obtain ⟨pawnMoves, -, h⟩ := bindSome _ _ _ h
    obtain ⟨rookMoves, -, h⟩ := bindSome _ _ _ h
    obtain ⟨knightMoves, -, h⟩ := bindSome _ _ _ h
    obtain ⟨bishopMoves, -, h⟩ := bindSome _ _ _ h
    obtain ⟨queenMoves, -, h⟩ := bindSome _ _ _ h
    obtain ⟨y, -, h⟩ := bindSome _ _ _ h
    obtain ⟨p, hp, h⟩ := bindSome _ _ _ h
    obtain ⟨mg5, km⟩ := p
    obtain heq : _ = (r, b') := Option.some.inj h
    have hb : b' = mg5.board := (congrArg Prod.snd heq).symm
    rw [hb, generate_king_moves_board mg4 (mg5, km) hp, get_pinned_board mg3 mg4 h4,
      get_block_ray_board mg2 mg3 h3, get_checkers_board mg1 mg2 h2,
      get_attacks_board _ mg1 h1]
  · obtain ⟨y, -, h⟩ := bindSome _ _ _ h
    obtain ⟨p, hp, h⟩ := bindSome _ _ _ h
    obtain ⟨mg5, km⟩ := p
    obtain heq : _ = (r, b') := Option.some.inj h
    have hb : b' = mg5.board := (congrArg Prod.snd heq).symm
    rw [hb, generate_king_moves_board mg4 (mg5, km) hp, get_pinned_board mg3 mg4 h4,
      get_block_ray_board mg2 mg3 h3, get_checkers_board mg1 mg2 h2,
      get_attacks_board _ mg1 h1]

/-- Witness for C10: in the en-passant-pin position the generator returns
its six moves together with the untouched board. -/
theorem c10_frame_witness :
    board5.generate_moves =
      some (⟨[Move.new 34 42 0, Move.new 32 24 0, Move.new 32 25 0, Move.new 32 33 0,
              Move.new 32 40 0, Move.new 32 41 0], false⟩, board5) ∧
    board5 = board5 :=
  ⟨rfl, c10_generate_moves_frame board5
    ⟨[Move.new 34 42 0, Move.new 32 24 0, Move.new 32 25 0, Move.new 32 33 0,
      Move.new 32 40 0, Move.new 32 41 0], false⟩ board5 rfl⟩

end PerftMaster
